import Mathlib

/-!
# HX711 load-cell ADC driver (`src/hx711.c`)

A shallow embedding of the acquisition state machine `hx711_event`, the task
handler `hx711_task` and the two host commands `command_config_hx711` and
`command_query_hx711`.

Conventions of the embedding:

* `uint32_t` values are natural numbers (below `2^32`); arithmetic on them is
  reduced `% 2^32` where the C code computes (`sample_idx++`, `48 + 2*gain`,
  `pin_state << k`, `timer_read_time() + DELAY`).
* `int32_t` values are integers in `[-2^31, 2^31)`; conversions between the two
  are `toU32` / `toI32`, and a signed product is wrapped by `wrapI32`.
* `h->sample >> 8` on the signed accumulator is the arithmetic shift `>>>` of
  `Int`.
* Calls to collaborators that are not part of this file (GPIO, scheduler,
  `sendf`, the load-cell probe) are recorded, in program order, as a list of
  `Effect`s returned by each function.
* `CONFIG_CLOCK_FREQ` (from `autoconf.h`) is a parameter `F` of every function
  that uses one of the three delay constants.
* `hx711_event_stmts` lists the same function statement by statement (calls and
  assignments to the device record in program order); `stmts_agree` relates the
  two views.
* Executions after configuration are lists of `Action`s (query commands and
  callback invocations) run by `runActions`.
-/

namespace HX711

/-! ## Machine integers -/

/-- Conversion `int32_t → uint32_t`: the 32-bit pattern of an integer. -/
def toU32 (x : Int) : Nat := (x % 2 ^ 32).toNat

/-- Conversion `uint32_t → int32_t` (two's complement): patterns below `2^31`
are themselves, patterns from `2^31` on are the negative numbers `n - 2^32`. -/
def toI32 (n : Nat) : Int :=
  if n % 2 ^ 32 < 2 ^ 31 then ((n % 2 ^ 32 : Nat) : Int)
  else -((2 ^ 32 - n % 2 ^ 32 : Nat) : Int)

/-- Reduction of an integer to the range of `int32_t` (two's complement). -/
def wrapI32 (x : Int) : Int := toI32 (toU32 x)

/-! ## Constants (lines 15-17) -/

/-- `#define SAMPLE_INTERVAL (CONFIG_CLOCK_FREQ/80)`. -/
def SAMPLE_INTERVAL (F : Nat) : Nat := F / 80

/-- `#define COMM_DELAY (40*(CONFIG_CLOCK_FREQ/1000000))`. -/
def COMM_DELAY (F : Nat) : Nat := 40 * (F / 1000000)

/-- `#define NO_DATA_RETRY_DELAY (200*(CONFIG_CLOCK_FREQ/1000000))`. -/
def NO_DATA_RETRY_DELAY (F : Nat) : Nat := 200 * (F / 1000000)

/-! ## Data model (lines 19-35) -/

/-- The record `struct hx711`.  The `struct timer` member is represented by its
`waketime`; the two GPIO handles carry no state of their own. -/
structure hx711 where
  oid : Nat
  sample : Int
  sample_idx : Nat
  gain : Nat
  waketime : Nat
  endstop_oid : Int
  result : Int
  invert : Int
  active : Nat
  deriving DecidableEq, Repr

/-- Return code of a timer callback (`SF_DONE` / `SF_RESCHEDULE` of `sched.h`). -/
inductive SchedFlag where
  | SF_DONE
  | SF_RESCHEDULE
  deriving DecidableEq, Repr

/-- Calls made to collaborators outside `hx711.c`, with the values passed or
returned. -/
inductive Effect where
  | gpio_in_setup (pin : Nat) (pull : Int)
  | gpio_out_setup (pin : Nat) (val : Nat)
  | gpio_in_read (val : Nat)
  | gpio_out_write (val : Nat)
  | timer_read_time (now : Nat)
  | sched_wake_task
  | sched_del_timer
  | sched_add_timer
  | check_load_cell_probe (endstop_oid : Int) (result : Int) (waketime : Nat)
  | sendf_hx711_in_state (oid : Nat) (clock : Nat) (value : Int)
  deriving DecidableEq, Repr

/-- The globals of the module (`hx711_1`, `hx711_wake`) together with the one
piece of scheduler state the commands act on: whether `h->timer` is currently
in the scheduler's timer list. -/
structure World where
  hx711_1 : hx711
  hx711_wake : Bool
  timer_scheduled : Bool
  deriving DecidableEq, Repr

/-- Modelled from the spec: `sched_wake_task` (scheduler, not in this file) sets
the single-slot pending flag of a `struct task_wake`. -/
def sched_wake_task (_flag : Bool) : Bool := true

/-- Modelled from the spec: `sched_check_wake` (scheduler, not in this file)
tests the pending flag and clears it; it returns the value tested and the new
flag. -/
def sched_check_wake (flag : Bool) : Bool × Bool := (flag, false)

/-! ## `hx711_event` (lines 37-74) -/

/-- What one invocation of the timer callback produces. -/
structure EventResult where
  world : World
  ret : SchedFlag
  effects : List Effect
  deriving DecidableEq, Repr

/-- Lines 47-49: the accumulator after the capture step.  On an odd half-cycle
inside the data window the sampled level is ORed in at bit `31 - sample_idx/2`
(`h->sample |= pin_state << (31 - (h->sample_idx)/2)`, computed in `uint32_t`
and stored back as `int32_t`); otherwise the accumulator is unchanged. -/
def capture (h : hx711) (pin_state : Nat) : Int :=
  if h.sample_idx % 2 ≠ 0 ∧ h.sample_idx < 48 then
    toI32 (toU32 h.sample ||| (pin_state <<< (31 - h.sample_idx / 2)) % 2 ^ 32)
  else h.sample

/-- The timer callback `hx711_event`.  `pin_state` is the value returned by
`gpio_in_read(h->dout)` at entry and `now` the value `timer_read_time()` returns
if this call reads the time. -/
def hx711_event (F : Nat) (w : World) (pin_state now : Nat) : EventResult :=
  let h := w.hx711_1
  if h.sample_idx = 0 ∧ pin_state ≠ 0 then
    { world := { w with hx711_1 :=
        { h with waketime := (now + NO_DATA_RETRY_DELAY F) % 2 ^ 32 } },
      ret := SchedFlag.SF_RESCHEDULE,
      effects := [Effect.gpio_in_read pin_state, Effect.timer_read_time now] }
  else
    -- lines 47-55: capture on odd half-cycles, raise the clock on even ones
    let sample1 : Int := capture h pin_state
    let out1 : Nat := if h.sample_idx % 2 ≠ 0 then 0 else 1
    let idx1 : Nat := (h.sample_idx + 1) % 2 ^ 32
    if idx1 ≥ (48 + (2 * h.gain) % 2 ^ 32) % 2 ^ 32 then
      -- lines 56-64: frame completion
      let result1 : Int := wrapI32 ((sample1 >>> (8 : Nat)) * h.invert)
      let h2 : hx711 := { h with result := result1, sample_idx := 0, sample := 0 }
      if h.active = 0 then
        { world := { w with hx711_1 := h2, hx711_wake := sched_wake_task w.hx711_wake },
          ret := SchedFlag.SF_DONE,
          effects := [Effect.gpio_in_read pin_state, Effect.sched_wake_task,
                      Effect.gpio_out_write 0] }
      else
        { world := { w with
            hx711_1 := { h2 with waketime := (now + SAMPLE_INTERVAL F) % 2 ^ 32 },
            hx711_wake := sched_wake_task w.hx711_wake },
          ret := SchedFlag.SF_RESCHEDULE,
          effects := [Effect.gpio_in_read pin_state, Effect.sched_wake_task,
                      Effect.gpio_out_write 0, Effect.timer_read_time now] }
    else
      { world := { w with hx711_1 :=
          { h with sample := sample1, sample_idx := idx1,
                   waketime := (now + COMM_DELAY F) % 2 ^ 32 } },
        ret := SchedFlag.SF_RESCHEDULE,
        effects := [Effect.gpio_in_read pin_state, Effect.gpio_out_write out1,
                    Effect.timer_read_time now] }

/-! ## `hx711_task` (lines 77-85) -/

/-- The task handler `hx711_task`: one pass of the cooperative task loop. -/
def hx711_task (w : World) : World × List Effect :=
  let chk := sched_check_wake w.hx711_wake
  if chk.1 = false then
    ({ w with hx711_wake := chk.2 }, [])
  else
    let h := w.hx711_1
    ({ w with hx711_wake := chk.2 },
      (if h.endstop_oid ≥ 0 then
         [Effect.check_load_cell_probe h.endstop_oid h.result h.waketime]
       else []) ++
      [Effect.sendf_hx711_in_state h.oid h.waketime h.result])

/-! ## Commands (lines 89-120) -/

/-- The command `command_config_hx711`.  `fresh` is the storage returned by
`oid_alloc`; its timer is in no scheduler list.  `args i` is `args[i]`. -/
def command_config_hx711 (args : Nat → Nat) (fresh : hx711) (w : World) :
    World × List Effect :=
  ({ hx711_1 :=
       { fresh with gain := args 3, invert := toI32 (args 4), sample_idx := 0,
                    sample := 0, oid := args 0, active := 0 },
     hx711_wake := w.hx711_wake,
     timer_scheduled := false },
   [Effect.gpio_in_setup (args 1) (-1), Effect.gpio_out_setup (args 2) 1])

/-- The command `command_query_hx711`.  `oid_lookup` is taken to return the
configured device; `now` is the value of `timer_read_time()`. -/
def command_query_hx711 (F : Nat) (args : Nat → Nat) (now : Nat) (w : World) :
    World × List Effect :=
  let h : hx711 := { w.hx711_1 with endstop_oid := toI32 (args 2), active := args 1 }
  if h.active ≠ 0 then
    ({ w with
        hx711_1 := { h with sample_idx := 0, sample := 0,
                            waketime := (now + NO_DATA_RETRY_DELAY F) % 2 ^ 32 },
        timer_scheduled := true },
     [Effect.sched_del_timer, Effect.gpio_out_write 0, Effect.timer_read_time now,
      Effect.sched_add_timer])
  else
    ({ w with hx711_1 := h }, [])

/-! ## Runs of the timer callback -/

/-- Input of one callback invocation: the data-line level read at entry and the
current time. -/
structure Tick where
  pin : Nat
  now : Nat
  deriving DecidableEq, Repr

/-- State after the first `n` invocations of `hx711_event`, the `k`-th of which
(counting from 0) receives input `inp k`. -/
def runEvents (F : Nat) (w : World) (inp : Nat → Tick) : Nat → World
  | 0 => w
  | n + 1 => (hx711_event F (runEvents F w inp n) (inp n).pin (inp n).now).world

/-- The `k`-th invocation (counting from 0) of a run. -/
def nthCall (F : Nat) (w : World) (inp : Nat → Tick) (k : Nat) : EventResult :=
  hx711_event F (runEvents F w inp k) (inp k).pin (inp k).now

/-- Values written to the clock line, in order. -/
def clockWrites : List Effect → List Nat
  | [] => []
  | Effect.gpio_out_write v :: es => v :: clockWrites es
  | _ :: es => clockWrites es

/-- Number of `sched_wake_task` calls. -/
def wakeCount (es : List Effect) : Nat := es.count Effect.sched_wake_task

/-- Reports sent to the host, in order, as `(oid, clock, value)`. -/
def reports : List Effect → List (Nat × Nat × Int)
  | [] => []
  | Effect.sendf_hx711_in_state o c v :: es => (o, c, v) :: reports es
  | _ :: es => reports es

/-- Calls to the probe collaborator, in order. -/
def probeCalls : List Effect → List (Int × Int × Nat)
  | [] => []
  | Effect.check_load_cell_probe e r t :: es => (e, r, t) :: probeCalls es
  | _ :: es => probeCalls es

/-- Modelled from the spec: the scheduler's timer dispatch (not in this file).
A scheduled timer's callback is invoked; it stays scheduled only when the
callback returns "reschedule", and "stop" means no further invocation. -/
def timer_dispatch (F : Nat) (w : World) (t : Tick) : World × List Effect :=
  if w.timer_scheduled = true then
    let r := hx711_event F w t.pin t.now
    ({ r.world with timer_scheduled := decide (r.ret = SchedFlag.SF_RESCHEDULE) },
      r.effects)
  else (w, [])

/-- Value of the first `k` bits of `b`, most significant first. -/
def bitsVal (b : Nat → Nat) : Nat → Nat
  | 0 => 0
  | k + 1 => 2 * bitsVal b k + b k

/-- Two states agree on the fields that drive the protocol: the pulse counter,
the accumulator and the gain. -/
def coreEq (u v : World) : Prop :=
  u.hx711_1.sample_idx = v.hx711_1.sample_idx ∧
  u.hx711_1.sample = v.hx711_1.sample ∧
  u.hx711_1.gain = v.hx711_1.gain

/-- Effects of the first `n` invocations of a run, in order. -/
def runEffects (F : Nat) (w : World) (inp : Nat → Tick) : Nat → List Effect
  | 0 => []
  | n + 1 => runEffects F w inp n ++ (nthCall F w inp n).effects

/-- The invocation is a not-ready retry: it takes the early return of lines
43-46. -/
def isRetry (w : World) (pin_state : Nat) : Prop :=
  w.hx711_1.sample_idx = 0 ∧ pin_state ≠ 0

/-- The invocation completes a frame: it is not a retry and the advanced counter
reaches `48 + 2*h->gain` (the condition of line 56). -/
def completesFrame (w : World) (pin_state : Nat) : Prop :=
  ¬ isRetry w pin_state ∧
  (48 + (2 * w.hx711_1.gain) % 2 ^ 32) % 2 ^ 32 ≤ (w.hx711_1.sample_idx + 1) % 2 ^ 32

instance (w : World) (pin_state : Nat) : Decidable (isRetry w pin_state) :=
  inferInstanceAs (Decidable (_ ∧ _))

instance (w : World) (pin_state : Nat) : Decidable (completesFrame w pin_state) :=
  inferInstanceAs (Decidable (_ ∧ _))

instance (u v : World) : Decidable (coreEq u v) :=
  inferInstanceAs (Decidable (_ ∧ _))

/-- Clock level of half-cycle `i` of a frame: high on even, low on odd. -/
def pulseLevel (i : Nat) : Nat := if i % 2 = 0 then 1 else 0

/-- The state `w` with `timer.waketime` replaced by `t`. -/
def setWaketime (w : World) (t : Nat) : World :=
  { w with hx711_1 := { w.hx711_1 with waketime := t } }

/-- One step of `hx711_event` in program order: a call to a collaborator, or an
assignment to a field of the device record (carrying the record as it stands
after the assignment). -/
inductive Stmt where
  | call (e : Effect)
  | assign (h : hx711)
  deriving DecidableEq, Repr

/-- The function `hx711_event` statement by statement (lines 42-73): the calls it
makes and the assignments to `*h`, in program order.  Assignments to the locals
`out` and `sample_complete` are not listed. -/
def hx711_event_stmts (F : Nat) (w : World) (pin_state now : Nat) : List Stmt :=
  let h := w.hx711_1
  Stmt.call (Effect.gpio_in_read pin_state) ::
  if h.sample_idx = 0 ∧ pin_state ≠ 0 then
    -- line 44
    [Stmt.call (Effect.timer_read_time now),
     Stmt.assign { h with waketime := (now + NO_DATA_RETRY_DELAY F) % 2 ^ 32 }]
  else
    -- line 49 (only on an odd half-cycle inside the data window)
    let h1 : hx711 := { h with sample := capture h pin_state }
    -- line 50 / line 54
    let h2 : hx711 := { h1 with sample_idx := (h.sample_idx + 1) % 2 ^ 32 }
    let out1 : Nat := if h.sample_idx % 2 ≠ 0 then 0 else 1
    (if h.sample_idx % 2 ≠ 0 ∧ h.sample_idx < 48 then [Stmt.assign h1] else []) ++
    Stmt.assign h2 ::
    if h2.sample_idx ≥ (48 + (2 * h.gain) % 2 ^ 32) % 2 ^ 32 then
      -- lines 58, 59, 62, 63
      let h3 : hx711 := { h2 with result := h2.sample >>> (8 : Nat) }
      let h4 : hx711 := { h3 with result := wrapI32 (h3.result * h3.invert) }
      let h5 : hx711 := { h4 with sample_idx := 0 }
      let h6 : hx711 := { h5 with sample := 0 }
      [Stmt.assign h3, Stmt.assign h4, Stmt.call Effect.sched_wake_task,
       Stmt.assign h5, Stmt.assign h6, Stmt.call (Effect.gpio_out_write 0)] ++
      (if h.active = 0 then []
       else [Stmt.call (Effect.timer_read_time now),
             Stmt.assign { h6 with waketime := (now + SAMPLE_INTERVAL F) % 2 ^ 32 }])
    else
      [Stmt.call (Effect.gpio_out_write out1), Stmt.call (Effect.timer_read_time now),
       Stmt.assign { h2 with waketime := (now + COMM_DELAY F) % 2 ^ 32 }]

/-- The collaborator calls of a statement list, in order. -/
def stmtCalls : List Stmt → List Effect
  | [] => []
  | Stmt.call e :: ss => e :: stmtCalls ss
  | Stmt.assign _ :: ss => stmtCalls ss

/-- The device record after a statement list run from the record `h`. -/
def lastAssign (h : hx711) : List Stmt → hx711
  | [] => h
  | Stmt.call _ :: ss => lastAssign h ss
  | Stmt.assign g :: ss => lastAssign g ss

/-- One step of an execution after configuration: a query command or an
invocation of the timer callback, with the values it receives. -/
inductive Action where
  | query (args : Nat → Nat) (now : Nat)
  | event (pin_state now : Nat)

/-- The state after one step. -/
def applyAction (F : Nat) (w : World) : Action → World
  | Action.query args now => (command_query_hx711 F args now w).1
  | Action.event pin_state now => (hx711_event F w pin_state now).world

/-- The state after a sequence of steps, first step first. -/
def runActions (F : Nat) (w : World) : List Action → World
  | [] => w
  | a :: rest => runActions F (applyAction F w a) rest

/-- Every data-line read of the sequence is 0 or 1. -/
def bitReads : List Action → Prop
  | [] => True
  | Action.event pin_state _ :: rest => pin_state ≤ 1 ∧ bitReads rest
  | Action.query _ _ :: rest => bitReads rest

/-- Invariant of the counter in every state reached after configuration: it is 0
or below the completion threshold, and the accumulator is 0 whenever it is 0. -/
def ReachInv (w : World) : Prop :=
  (w.hx711_1.sample_idx = 0 ∨
    w.hx711_1.sample_idx < (48 + (2 * w.hx711_1.gain) % 2 ^ 32) % 2 ^ 32) ∧
  (w.hx711_1.sample_idx = 0 → w.hx711_1.sample = 0)

/-- The GPIO accesses among the calls of an invocation, in order. -/
def gpioOps : List Effect → List Effect
  | [] => []
  | Effect.gpio_in_read v :: es => Effect.gpio_in_read v :: gpioOps es
  | Effect.gpio_out_write v :: es => Effect.gpio_out_write v :: gpioOps es
  | _ :: es => gpioOps es

/-- Invariant of the accumulator in every state reached after configuration when
the data line reads 0 or 1: it is an `int32_t` value and the bits of its pattern
below the last captured position, `32 - min (sample_idx / 2) 24`, are zero. -/
def BitInv (w : World) : Prop :=
  (-2 ^ 31 ≤ w.hx711_1.sample ∧ w.hx711_1.sample < 2 ^ 31) ∧
  toU32 w.hx711_1.sample % 2 ^ (32 - min (w.hx711_1.sample_idx / 2) 24) = 0

/-! ## Concrete inputs used to exercise the statements -/

/-- A frame-start state: gain 1, not inverted, enabled, no probe. -/
def exWorld : World :=
  { hx711_1 := { oid := 3, sample := 0, sample_idx := 0, gain := 1, waketime := 0,
                 endstop_oid := -1, result := 0, invert := 1, active := 1 },
    hx711_wake := false, timer_scheduled := true }

/-- The bit pattern `1` followed by 23 zeros. -/
def exBits : Nat → Nat := fun i => if i = 0 then 1 else 0

/-- Data line low on the first call, then `exBits` on the capture calls (the one
at index 1 reads high, all others low); time advances by 1000 per call. -/
def exInput : Nat → Tick := fun k => { pin := if k = 1 then 1 else 0, now := 1000 * k }

/-- Arguments of `config_hx711 oid=3 dout_pin=10 sck_pin=11 gain=1 invert=1`. -/
def exConfigArgs : Nat → Nat := fun i =>
  if i = 0 then 3 else if i = 1 then 10 else if i = 2 then 11 else 1

/-- Arguments of `query_hx711 oid=3 enable=1 endstop_oid=-1`. -/
def exQueryArgs : Nat → Nat := fun i =>
  if i = 0 then 3 else if i = 1 then 1 else 4294967295

/-- Storage as handed out by an allocator that zero-fills. -/
def exFresh : hx711 :=
  { oid := 0, sample := 0, sample_idx := 0, gain := 0, waketime := 0,
    endstop_oid := 0, result := 0, invert := 0, active := 0 }

/-- Globals before any command has run. -/
def exBoot : World := { hx711_1 := exFresh, hx711_wake := false, timer_scheduled := false }

/-- A data line that never signals ready. -/
def exHigh : Nat → Tick := fun k => { pin := 1, now := 1000 * k }

/-- A state in the middle of a frame (ten half-cycles done, gain 1). -/
def exMid : World :=
  { hx711_1 := { oid := 3, sample := -2147483648, sample_idx := 10, gain := 1,
                 waketime := 0, endstop_oid := -1, result := 7, invert := 1, active := 1 },
    hx711_wake := false, timer_scheduled := true }

/-- Arguments of `query_hx711 oid=3 enable=0 endstop_oid=-1`. -/
def exDisableArgs : Nat → Nat := fun i =>
  if i = 0 then 3 else if i = 1 then 0 else 4294967295

/-- A state left over from an interrupted frame: counter and accumulator are
non-zero and an old result is stored. -/
def exStale : World :=
  { hx711_1 := { oid := 3, sample := 1431655680, sample_idx := 17, gain := 1,
                 waketime := 99, endstop_oid := -1, result := 1234, invert := 1,
                 active := 0 },
    hx711_wake := false, timer_scheduled := false }

/-- The state `exWorld` with the result inverted. -/
def exWorldInv : World :=
  { exWorld with hx711_1 := { exWorld.hx711_1 with invert := -1 } }

/-- A state one half-cycle before the end of a gain-1 frame. -/
def exLast : World :=
  { hx711_1 := { oid := 3, sample := 256, sample_idx := 49, gain := 1, waketime := 0,
                 endstop_oid := -1, result := 0, invert := 1, active := 1 },
    hx711_wake := false, timer_scheduled := true }

/-- Data line always low. -/
def exLow : Nat → Tick := fun k => { pin := 0, now := 1000 * k }

/-- A state with a pending notification and a probe linked (`endstop_oid = 2`). -/
def exProbe : World :=
  { hx711_1 := { oid := 3, sample := 0, sample_idx := 0, gain := 1, waketime := 949000,
                 endstop_oid := 2, result := -8388608, invert := 1, active := 1 },
    hx711_wake := true, timer_scheduled := true }

/-- The inputs of `exInput`, each invocation running late by a growing amount. -/
def exInputLate : Nat → Tick := fun k =>
  { pin := if k = 1 then 1 else 0, now := 1000 * k + 37 * k * k + 500 }

/-- An execution after configuration: enable, one not-ready retry, seven
half-cycles, a disable in mid-frame, three more half-cycles. -/
def exActions : List Action :=
  [Action.query exQueryArgs 5, Action.event 1 100, Action.event 0 300,
   Action.event 1 340, Action.event 0 380, Action.event 1 420, Action.event 0 460,
   Action.event 0 500, Action.event 0 540, Action.query exDisableArgs 550,
   Action.event 1 580, Action.event 0 620, Action.event 1 660]

/-- A state on a capture half-cycle (`sample_idx = 5`, so bit position 29), with
bits 31 and 30 already captured as `1, 0`. -/
def exCapture : World :=
  { hx711_1 := { oid := 3, sample := -2147483648, sample_idx := 5, gain := 1,
                 waketime := 0, endstop_oid := -1, result := 0, invert := 1, active := 1 },
    hx711_wake := false, timer_scheduled := true }

/-- A frame-start state with the out-of-range gain 0. -/
def exGain0 : World :=
  { exWorld with hx711_1 := { exWorld.hx711_1 with gain := 0 } }

/-- A frame-start state with the gain `2^31 - 24`, for which `48 + 2*gain` is
`2^32`. -/
def exGainWrap : World :=
  { exWorld with hx711_1 := { exWorld.hx711_1 with gain := 2147483624 } }

/-! ## Machine-integer facts -/

theorem wrapI32_range (x : Int) : -2 ^ 31 ≤ wrapI32 x ∧ wrapI32 x < 2 ^ 31 := by
  unfold wrapI32 toI32 toU32; split <;> omega

theorem wrapI32_of_range (x : Int) (h1 : -2 ^ 31 ≤ x) (h2 : x < 2 ^ 31) :
    wrapI32 x = x := by
  unfold wrapI32 toI32 toU32; split <;> omega

theorem toU32_toI32 (n : Nat) (h : n < 2 ^ 32) : toU32 (toI32 n) = n := by
  unfold toU32 toI32; split <;> omega

theorem toU32_lt (x : Int) : toU32 x < 2 ^ 32 := by
  unfold toU32; omega

theorem shr8 (x : Int) : x >>> (8 : Nat) = x / 256 := by
  rw [Int.shiftRight_eq_div_pow]; norm_num

theorem bitsVal_lt (b : Nat → Nat) (hb : ∀ i, i < 24 → b i ≤ 1) :
    ∀ k, k ≤ 24 → bitsVal b k < 2 ^ k := by
  intro k
  induction k with
  | zero => intro _; simp [bitsVal]
  | succ k ih =>
    intro hk
    have h1 := ih (by omega)
    have h2 := hb k (by omega)
    simp only [bitsVal, pow_succ]
    omega

theorem or_capture (v c k : Nat) (hk : k < 24) (hc : c ≤ 1) :
    (2 ^ (32 - k) * v ||| (c <<< (31 - k)) % 2 ^ 32)
      = 2 ^ (32 - (k + 1)) * (2 * v + c) := by
  have e1 : 32 - k = (31 - k) + 1 := by omega
  have e2 : 32 - (k + 1) = 31 - k := by omega
  have hlt : c * 2 ^ (31 - k) < 2 ^ (32 - k) := by
    rw [e1, pow_succ]
    have : 0 < 2 ^ (31 - k) := Nat.two_pow_pos _
    nlinarith
  have hlt2 : 2 ^ (32 - k) ≤ 2 ^ 32 := Nat.pow_le_pow_right (by norm_num) (by omega)
  rw [Nat.shiftLeft_eq, Nat.mod_eq_of_lt (by omega), ← Nat.mul_add_lt_is_or hlt, e2, e1,
    pow_succ]
  ring

/-! ## One invocation of `hx711_event` -/

/-- A not-ready retry: `sample_idx == 0` and the data line reads high. -/
theorem event_retry (F : Nat) (w : World) (pin now : Nat)
    (h0 : w.hx711_1.sample_idx = 0) (hp : pin ≠ 0) :
    hx711_event F w pin now =
      { world := { w with hx711_1 :=
          { w.hx711_1 with waketime := (now + NO_DATA_RETRY_DELAY F) % 2 ^ 32 } },
        ret := SchedFlag.SF_RESCHEDULE,
        effects := [Effect.gpio_in_read pin, Effect.timer_read_time now] } := by
  simp [hx711_event, h0, hp]

/-- A half-cycle that does not reach the completion threshold. -/
theorem event_advance (F : Nat) (w : World) (pin now : Nat)
    (hr : ¬ (w.hx711_1.sample_idx = 0 ∧ pin ≠ 0))
    (hlt : (w.hx711_1.sample_idx + 1) % 2 ^ 32
             < (48 + (2 * w.hx711_1.gain) % 2 ^ 32) % 2 ^ 32) :
    hx711_event F w pin now =
      { world := { w with hx711_1 :=
          { w.hx711_1 with
              sample := capture w.hx711_1 pin,
              sample_idx := (w.hx711_1.sample_idx + 1) % 2 ^ 32,
              waketime := (now + COMM_DELAY F) % 2 ^ 32 } },
        ret := SchedFlag.SF_RESCHEDULE,
        effects := [Effect.gpio_in_read pin,
                    Effect.gpio_out_write (if w.hx711_1.sample_idx % 2 ≠ 0 then 0 else 1),
                    Effect.timer_read_time now] } := by
  unfold hx711_event
  rw [if_neg hr]
  simp only [ge_iff_le]
  rw [if_neg (by omega)]

/-- A half-cycle that reaches the completion threshold, engine disabled. -/
theorem event_complete_stop (F : Nat) (w : World) (pin now : Nat)
    (hr : ¬ (w.hx711_1.sample_idx = 0 ∧ pin ≠ 0))
    (hge : (48 + (2 * w.hx711_1.gain) % 2 ^ 32) % 2 ^ 32
             ≤ (w.hx711_1.sample_idx + 1) % 2 ^ 32)
    (ha : w.hx711_1.active = 0) :
    hx711_event F w pin now =
      { world := { w with
          hx711_1 := { w.hx711_1 with
            result := wrapI32 ((capture w.hx711_1 pin >>> (8 : Nat)) * w.hx711_1.invert),
            sample_idx := 0, sample := 0 },
          hx711_wake := true },
        ret := SchedFlag.SF_DONE,
        effects := [Effect.gpio_in_read pin, Effect.sched_wake_task,
                    Effect.gpio_out_write 0] } := by
  unfold hx711_event
  rw [if_neg hr]
  simp only [ge_iff_le]
  rw [if_pos hge, if_pos ha]
  rfl

/-- A half-cycle that reaches the completion threshold, engine enabled. -/
theorem event_complete_go (F : Nat) (w : World) (pin now : Nat)
    (hr : ¬ (w.hx711_1.sample_idx = 0 ∧ pin ≠ 0))
    (hge : (48 + (2 * w.hx711_1.gain) % 2 ^ 32) % 2 ^ 32
             ≤ (w.hx711_1.sample_idx + 1) % 2 ^ 32)
    (ha : w.hx711_1.active ≠ 0) :
    hx711_event F w pin now =
      { world := { w with
          hx711_1 := { w.hx711_1 with
            result := wrapI32 ((capture w.hx711_1 pin >>> (8 : Nat)) * w.hx711_1.invert),
            sample_idx := 0, sample := 0,
            waketime := (now + SAMPLE_INTERVAL F) % 2 ^ 32 },
          hx711_wake := true },
        ret := SchedFlag.SF_RESCHEDULE,
        effects := [Effect.gpio_in_read pin, Effect.sched_wake_task,
                    Effect.gpio_out_write 0, Effect.timer_read_time now] } := by
  unfold hx711_event
  rw [if_neg hr]
  simp only [ge_iff_le]
  rw [if_pos hge, if_neg ha]
  rfl

/-! ## A frame in progress -/

/-- From a state with `sample_idx = j` (data line low on the first call when
`j = 0`), the first `k` invocations with `j + k < 48 + 2*gain` only advance
`sample_idx` to `j + k` and touch `sample` and `waketime`. -/
theorem frame_progress (F : Nat) (w : World) (inp : Nat → Tick)
    (hN : 48 + 2 * w.hx711_1.gain < 2 ^ 32)
    (hp : w.hx711_1.sample_idx = 0 → (inp 0).pin = 0) :
    ∀ k, w.hx711_1.sample_idx + k < 48 + 2 * w.hx711_1.gain → ∃ s t,
      runEvents F w inp k =
        { w with hx711_1 :=
            { w.hx711_1 with sample_idx := w.hx711_1.sample_idx + k, sample := s,
                             waketime := t } } := by
  intro k
  induction k with
  | zero =>
    intro _
    exact ⟨w.hx711_1.sample, w.hx711_1.waketime, rfl⟩
  | succ k ih =>
    intro hk
    obtain ⟨s, t, hs⟩ := ih (by omega)
    have hr : ¬ ((runEvents F w inp k).hx711_1.sample_idx = 0 ∧ (inp k).pin ≠ 0) := by
      rw [hs]
      rintro ⟨h1, h2⟩
      simp only at h1
      have hk0 : k = 0 := by omega
      subst hk0
      exact h2 (hp (by omega))
    have hlt : ((runEvents F w inp k).hx711_1.sample_idx + 1) % 2 ^ 32
        < (48 + (2 * (runEvents F w inp k).hx711_1.gain) % 2 ^ 32) % 2 ^ 32 := by
      rw [hs]; simp only; omega
    refine ⟨capture (runEvents F w inp k).hx711_1 (inp k).pin,
      ((inp k).now + COMM_DELAY F) % 2 ^ 32, ?_⟩
    show (hx711_event F (runEvents F w inp k) (inp k).pin (inp k).now).world = _
    rw [event_advance F _ _ _ hr hlt]
    simp only
    rw [hs]
    simp only
    rw [Nat.mod_eq_of_lt (by omega), Nat.add_assoc]

/-- Fields of the state during a frame in progress. -/
theorem frame_fields (F : Nat) (w : World) (inp : Nat → Tick)
    (hN : 48 + 2 * w.hx711_1.gain < 2 ^ 32)
    (hp : w.hx711_1.sample_idx = 0 → (inp 0).pin = 0)
    (k : Nat) (hk : w.hx711_1.sample_idx + k < 48 + 2 * w.hx711_1.gain) :
    (runEvents F w inp k).hx711_1.sample_idx = w.hx711_1.sample_idx + k ∧
    (runEvents F w inp k).hx711_1.gain = w.hx711_1.gain ∧
    (runEvents F w inp k).hx711_1.invert = w.hx711_1.invert ∧
    (runEvents F w inp k).hx711_1.active = w.hx711_1.active ∧
    (runEvents F w inp k).hx711_1.result = w.hx711_1.result ∧
    (runEvents F w inp k).hx711_1.oid = w.hx711_1.oid ∧
    (runEvents F w inp k).hx711_1.endstop_oid = w.hx711_1.endstop_oid ∧
    (runEvents F w inp k).hx711_wake = w.hx711_wake ∧
    (runEvents F w inp k).timer_scheduled = w.timer_scheduled := by
  obtain ⟨s, t, hs⟩ := frame_progress F w inp hN hp k hk
  rw [hs]
  simp

/-- No invocation of a frame in progress is a not-ready retry. -/
theorem frame_not_retry (F : Nat) (w : World) (inp : Nat → Tick)
    (hN : 48 + 2 * w.hx711_1.gain < 2 ^ 32)
    (hp : w.hx711_1.sample_idx = 0 → (inp 0).pin = 0)
    (k : Nat) (hk : w.hx711_1.sample_idx + k < 48 + 2 * w.hx711_1.gain) :
    ¬ ((runEvents F w inp k).hx711_1.sample_idx = 0 ∧ (inp k).pin ≠ 0) := by
  rw [(frame_fields F w inp hN hp k hk).1]
  rintro ⟨h1, h2⟩
  have hk0 : k = 0 := by omega
  subst hk0
  exact h2 (hp (by omega))

/-- The `k`-th invocation of a frame in progress, when it does not reach the
completion threshold. -/
theorem nthCall_advance (F : Nat) (w : World) (inp : Nat → Tick)
    (hN : 48 + 2 * w.hx711_1.gain < 2 ^ 32)
    (hp : w.hx711_1.sample_idx = 0 → (inp 0).pin = 0)
    (k : Nat) (hk : w.hx711_1.sample_idx + k + 1 < 48 + 2 * w.hx711_1.gain) :
    nthCall F w inp k =
      { world := { runEvents F w inp k with hx711_1 :=
          { (runEvents F w inp k).hx711_1 with
              sample := capture (runEvents F w inp k).hx711_1 (inp k).pin,
              sample_idx := w.hx711_1.sample_idx + k + 1,
              waketime := ((inp k).now + COMM_DELAY F) % 2 ^ 32 } },
        ret := SchedFlag.SF_RESCHEDULE,
        effects := [Effect.gpio_in_read (inp k).pin,
                    Effect.gpio_out_write
                      (if (w.hx711_1.sample_idx + k) % 2 ≠ 0 then 0 else 1),
                    Effect.timer_read_time (inp k).now] } := by
  have hf := frame_fields F w inp hN hp k (by omega)
  have hr := frame_not_retry F w inp hN hp k (by omega)
  unfold nthCall
  rw [event_advance F _ _ _ hr (by rw [hf.1, hf.2.1]; omega), hf.1,
    Nat.mod_eq_of_lt (by omega)]

/-- The last invocation of a frame, with the engine enabled. -/
theorem nthCall_complete_go (F : Nat) (w : World) (inp : Nat → Tick)
    (hN : 48 + 2 * w.hx711_1.gain < 2 ^ 32)
    (hp : w.hx711_1.sample_idx = 0 → (inp 0).pin = 0)
    (ha : w.hx711_1.active ≠ 0) (k : Nat)
    (hk : w.hx711_1.sample_idx + k + 1 = 48 + 2 * w.hx711_1.gain) :
    nthCall F w inp k =
      { world := { runEvents F w inp k with
          hx711_1 := { (runEvents F w inp k).hx711_1 with
            result := wrapI32 ((capture (runEvents F w inp k).hx711_1 (inp k).pin
                        >>> (8 : Nat)) * w.hx711_1.invert),
            sample_idx := 0, sample := 0,
            waketime := ((inp k).now + SAMPLE_INTERVAL F) % 2 ^ 32 },
          hx711_wake := true },
        ret := SchedFlag.SF_RESCHEDULE,
        effects := [Effect.gpio_in_read (inp k).pin, Effect.sched_wake_task,
                    Effect.gpio_out_write 0, Effect.timer_read_time (inp k).now] } := by
  have hf := frame_fields F w inp hN hp k (by omega)
  have hr := frame_not_retry F w inp hN hp k (by omega)
  unfold nthCall
  rw [event_complete_go F _ _ _ hr (by rw [hf.1, hf.2.1]; omega)
    (by rw [hf.2.2.2.1]; exact ha), hf.2.2.1]

/-- The last invocation of a frame, with the engine disabled. -/
theorem nthCall_complete_stop (F : Nat) (w : World) (inp : Nat → Tick)
    (hN : 48 + 2 * w.hx711_1.gain < 2 ^ 32)
    (hp : w.hx711_1.sample_idx = 0 → (inp 0).pin = 0)
    (ha : w.hx711_1.active = 0) (k : Nat)
    (hk : w.hx711_1.sample_idx + k + 1 = 48 + 2 * w.hx711_1.gain) :
    nthCall F w inp k =
      { world := { runEvents F w inp k with
          hx711_1 := { (runEvents F w inp k).hx711_1 with
            result := wrapI32 ((capture (runEvents F w inp k).hx711_1 (inp k).pin
                        >>> (8 : Nat)) * w.hx711_1.invert),
            sample_idx := 0, sample := 0 },
          hx711_wake := true },
        ret := SchedFlag.SF_DONE,
        effects := [Effect.gpio_in_read (inp k).pin, Effect.sched_wake_task,
                    Effect.gpio_out_write 0] } := by
  have hf := frame_fields F w inp hN hp k (by omega)
  have hr := frame_not_retry F w inp hN hp k (by omega)
  unfold nthCall
  rw [event_complete_stop F _ _ _ hr (by rw [hf.1, hf.2.1]; omega)
    (by rw [hf.2.2.2.1]; exact ha), hf.2.2.1]

theorem runEvents_succ (F : Nat) (w : World) (inp : Nat → Tick) (k : Nat) :
    runEvents F w inp (k + 1) = (nthCall F w inp k).world := rfl

/-- The state left by the last invocation of a frame. -/
theorem frame_result (F : Nat) (w : World) (inp : Nat → Tick)
    (hN : 48 + 2 * w.hx711_1.gain < 2 ^ 32)
    (hp : w.hx711_1.sample_idx = 0 → (inp 0).pin = 0)
    (k : Nat) (hk : w.hx711_1.sample_idx + k + 1 = 48 + 2 * w.hx711_1.gain) :
    (runEvents F w inp (k + 1)).hx711_1.result =
      wrapI32 ((capture (runEvents F w inp k).hx711_1 (inp k).pin >>> (8 : Nat))
        * w.hx711_1.invert) ∧
    (runEvents F w inp (k + 1)).hx711_1.sample_idx = 0 ∧
    (runEvents F w inp (k + 1)).hx711_1.sample = 0 ∧
    (runEvents F w inp (k + 1)).hx711_wake = true ∧
    wakeCount (nthCall F w inp k).effects = 1 ∧
    clockWrites (nthCall F w inp k).effects = [0] := by
  rw [runEvents_succ]
  by_cases ha : w.hx711_1.active = 0
  · rw [nthCall_complete_stop F w inp hN hp ha k hk]; simp [wakeCount, clockWrites]
  · rw [nthCall_complete_go F w inp hN hp ha k hk]; simp [wakeCount, clockWrites]

/-- Fields of the state left by the last invocation of a frame. -/
theorem frame_final_fields (F : Nat) (w : World) (inp : Nat → Tick)
    (hN : 48 + 2 * w.hx711_1.gain < 2 ^ 32)
    (hp : w.hx711_1.sample_idx = 0 → (inp 0).pin = 0)
    (k : Nat) (hk : w.hx711_1.sample_idx + k + 1 = 48 + 2 * w.hx711_1.gain) :
    (runEvents F w inp (k + 1)).hx711_1.oid = w.hx711_1.oid ∧
    (runEvents F w inp (k + 1)).hx711_1.endstop_oid = w.hx711_1.endstop_oid ∧
    (runEvents F w inp (k + 1)).hx711_1.gain = w.hx711_1.gain ∧
    (runEvents F w inp (k + 1)).hx711_1.invert = w.hx711_1.invert ∧
    (runEvents F w inp (k + 1)).hx711_1.active = w.hx711_1.active ∧
    (w.hx711_1.active ≠ 0 → (runEvents F w inp (k + 1)).hx711_1.waketime =
      ((inp k).now + SAMPLE_INTERVAL F) % 2 ^ 32) := by
  have hf := frame_fields F w inp hN hp k (by omega)
  rw [runEvents_succ]
  by_cases ha : w.hx711_1.active = 0
  · rw [nthCall_complete_stop F w inp hN hp ha k hk]
    exact ⟨hf.2.2.2.2.2.1, hf.2.2.2.2.2.2.1, hf.2.1, hf.2.2.1, hf.2.2.2.1,
      fun h => absurd ha h⟩
  · rw [nthCall_complete_go F w inp hN hp ha k hk]
    exact ⟨hf.2.2.2.2.2.1, hf.2.2.2.2.2.2.1, hf.2.1, hf.2.2.1, hf.2.2.2.1, fun _ => rfl⟩

/-- The accumulator after the capture step of invocation `k`, when the capture
invocations `1, 3, ..., 47` read the bits `b 0, ..., b 23`. -/
theorem frame_capture (F : Nat) (w : World) (inp : Nat → Tick) (b : Nat → Nat)
    (hN : 48 + 2 * w.hx711_1.gain < 2 ^ 32)
    (h0 : w.hx711_1.sample_idx = 0) (hs0 : w.hx711_1.sample = 0)
    (hp : (inp 0).pin = 0)
    (hb : ∀ i, i < 24 → b i ≤ 1)
    (hin : ∀ i, i < 24 → (inp (2 * i + 1)).pin = b i) :
    ∀ k, k < 48 + 2 * w.hx711_1.gain →
      capture (runEvents F w inp k).hx711_1 (inp k).pin =
        toI32 (2 ^ (32 - min ((k + 1) / 2) 24) * bitsVal b (min ((k + 1) / 2) 24)) := by
  intro k
  induction k with
  | zero =>
    intro _
    simp [capture, runEvents, h0, hs0, bitsVal, toI32]
  | succ k ih =>
    intro hk
    have hprev := ih (by omega)
    have hf := frame_fields F w inp hN (fun _ => hp) (k + 1) (by omega)
    have hsample : (runEvents F w inp (k + 1)).hx711_1.sample =
        capture (runEvents F w inp k).hx711_1 (inp k).pin := by
      rw [runEvents_succ, nthCall_advance F w inp hN (fun _ => hp) k (by omega)]
    unfold capture
    rw [hf.1, hsample, hprev, h0, Nat.zero_add]
    by_cases hc : (k + 1) % 2 ≠ 0 ∧ k + 1 < 48
    · rw [if_pos hc]
      have e1 : min ((k + 1) / 2) 24 = (k + 1) / 2 := by omega
      have e2 : min ((k + 1 + 1) / 2) 24 = (k + 1) / 2 + 1 := by omega
      have e3 : 2 * ((k + 1) / 2) + 1 = k + 1 := by omega
      have hlt := bitsVal_lt b hb ((k + 1) / 2) (by omega)
      have hpin : (inp (k + 1)).pin = b ((k + 1) / 2) := by
        rw [← hin ((k + 1) / 2) (by omega), e3]
      have hX : 2 ^ (32 - (k + 1) / 2) * bitsVal b ((k + 1) / 2) < 2 ^ 32 := by
        calc 2 ^ (32 - (k + 1) / 2) * bitsVal b ((k + 1) / 2)
            < 2 ^ (32 - (k + 1) / 2) * 2 ^ ((k + 1) / 2) :=
              Nat.mul_lt_mul_of_pos_left hlt (Nat.two_pow_pos _)
          _ = 2 ^ 32 := by rw [← pow_add]; congr 1; omega
      rw [e1, e2, toU32_toI32 _ hX, hpin,
        or_capture _ _ _ (by omega) (hb _ (by omega))]
      rfl
    · rw [if_neg hc]
      have e : min ((k + 1 + 1) / 2) 24 = min ((k + 1) / 2) 24 := by omega
      rw [e]

/-! ## Sign extension -/

/-- Arithmetic shift by 8 of a left-justified 24-bit field. -/
theorem shift_field (W : Nat) (hW : W < 2 ^ 24) :
    toI32 (2 ^ (32 - 24) * W) >>> (8 : Nat) = (W : Int) - (if 2 ^ 23 ≤ W then 2 ^ 24 else 0) := by
  rw [shr8]
  unfold toI32
  split <;> split <;> omega

/-- The 24-bit word as an explicit sum, and its two's-complement value. -/
theorem bitsVal_signed (b : Nat → Nat) (hb : ∀ i, i < 24 → b i ≤ 1) :
    (bitsVal b 24 : Int) - (if 2 ^ 23 ≤ bitsVal b 24 then 2 ^ 24 else 0)
      = (∑ i ∈ Finset.range 24, (b i : Int) * 2 ^ (23 - i)) - (b 0 : Int) * 2 ^ 24 := by
  have h0 := hb 0 (by norm_num)
  have h1 := hb 1 (by norm_num)
  have h2 := hb 2 (by norm_num)
  have h3 := hb 3 (by norm_num)
  have h4 := hb 4 (by norm_num)
  have h5 := hb 5 (by norm_num)
  have h6 := hb 6 (by norm_num)
  have h7 := hb 7 (by norm_num)
  have h8 := hb 8 (by norm_num)
  have h9 := hb 9 (by norm_num)
  have h10 := hb 10 (by norm_num)
  have h11 := hb 11 (by norm_num)
  have h12 := hb 12 (by norm_num)
  have h13 := hb 13 (by norm_num)
  have h14 := hb 14 (by norm_num)
  have h15 := hb 15 (by norm_num)
  have h16 := hb 16 (by norm_num)
  have h17 := hb 17 (by norm_num)
  have h18 := hb 18 (by norm_num)
  have h19 := hb 19 (by norm_num)
  have h20 := hb 20 (by norm_num)
  have h21 := hb 21 (by norm_num)
  have h22 := hb 22 (by norm_num)
  have h23 := hb 23 (by norm_num)
  simp only [bitsVal, Finset.sum_range_succ, Finset.sum_range_zero]
  norm_num
  split <;> omega

/-- Result of a complete frame in terms of the captured bits. -/
theorem frame_result_bits (F : Nat) (w : World) (inp : Nat → Tick) (b : Nat → Nat)
    (hN : 48 + 2 * w.hx711_1.gain < 2 ^ 32)
    (h0 : w.hx711_1.sample_idx = 0) (hs0 : w.hx711_1.sample = 0)
    (hp : (inp 0).pin = 0)
    (hb : ∀ i, i < 24 → b i ≤ 1)
    (hin : ∀ i, i < 24 → (inp (2 * i + 1)).pin = b i) :
    (runEvents F w inp (48 + 2 * w.hx711_1.gain)).hx711_1.result =
      wrapI32 (((∑ i ∈ Finset.range 24, (b i : Int) * 2 ^ (23 - i)) - (b 0 : Int) * 2 ^ 24)
        * w.hx711_1.invert) := by
  have e : 48 + 2 * w.hx711_1.gain = (47 + 2 * w.hx711_1.gain) + 1 := by omega
  have hm : min ((47 + 2 * w.hx711_1.gain + 1) / 2) 24 = 24 := by omega
  rw [e, (frame_result F w inp hN (fun _ => hp) _ (by omega)).1,
    frame_capture F w inp b hN h0 hs0 hp hb hin _ (by omega), hm,
    shift_field _ (bitsVal_lt b hb 24 (le_refl _)), bitsVal_signed b hb]

/-- Range of the two's-complement value of a 24-bit word. -/
theorem signed_range (b : Nat → Nat) (hb : ∀ i, i < 24 → b i ≤ 1) :
    -2 ^ 23 ≤ (∑ i ∈ Finset.range 24, (b i : Int) * 2 ^ (23 - i)) - (b 0 : Int) * 2 ^ 24 ∧
    (∑ i ∈ Finset.range 24, (b i : Int) * 2 ^ (23 - i)) - (b 0 : Int) * 2 ^ 24 < 2 ^ 23 := by
  rw [← bitsVal_signed b hb]
  have := bitsVal_lt b hb 24 (le_refl _)
  split <;> omega

/-- Value of the word `1` followed by 23 zeros. -/
theorem signed_msb_only (b : Nat → Nat) (h1 : b 0 = 1)
    (hz : ∀ i, 1 ≤ i → i < 24 → b i = 0) :
    (∑ i ∈ Finset.range 24, (b i : Int) * 2 ^ (23 - i)) - (b 0 : Int) * 2 ^ 24 = -8388608 := by
  rw [Finset.sum_range_succ', h1,
    Finset.sum_congr rfl (fun i hi => by
      rw [hz (i + 1) (by omega) (by have := Finset.mem_range.mp hi; omega)])]
  simp

/-! ## The task handler -/

/-- With the flag set and no probe linked, a task pass sends exactly the report
of the current `oid`, `waketime` and `result`. -/
theorem task_report (w : World) (hwake : w.hx711_wake = true)
    (hend : w.hx711_1.endstop_oid < 0) :
    (hx711_task w).2 =
      [Effect.sendf_hx711_in_state w.hx711_1.oid w.hx711_1.waketime w.hx711_1.result] := by
  simp [hx711_task, sched_check_wake, hwake, not_le.mpr hend]

/-! ## Not-ready retries -/

/-- While the data line reads high at `sample_idx = 0`, only `waketime` changes. -/
theorem retry_run (F : Nat) (w : World) (inp : Nat → Tick)
    (h0 : w.hx711_1.sample_idx = 0) :
    ∀ n, (∀ k, k < n → (inp k).pin ≠ 0) → ∃ t,
      runEvents F w inp n = { w with hx711_1 := { w.hx711_1 with waketime := t } } := by
  intro n
  induction n with
  | zero => intro _; exact ⟨w.hx711_1.waketime, rfl⟩
  | succ n ih =>
    intro hpins
    obtain ⟨t, ht⟩ := ih (fun k hk => hpins k (by omega))
    refine ⟨((inp n).now + NO_DATA_RETRY_DELAY F) % 2 ^ 32, ?_⟩
    show (hx711_event F (runEvents F w inp n) (inp n).pin (inp n).now).world = _
    rw [event_retry F _ _ _ (by rw [ht]; exact h0) (hpins n (by omega)), ht]

/-! ## Runs that differ outside the protocol state -/

theorem capture_congr (g h : hx711) (pin : Nat)
    (h1 : g.sample_idx = h.sample_idx) (h2 : g.sample = h.sample) :
    capture g pin = capture h pin := by
  unfold capture
  rw [h1, h2]

/-- One invocation from two states that agree on counter, accumulator and gain,
with the same data-line level (the clock frequency, the time, and all other
fields may differ). -/
theorem event_lockstep (F1 F2 : Nat) (u v : World) (pin t1 t2 : Nat) (hc : coreEq u v) :
    coreEq (hx711_event F1 u pin t1).world (hx711_event F2 v pin t2).world ∧
    clockWrites (hx711_event F1 u pin t1).effects
      = clockWrites (hx711_event F2 v pin t2).effects ∧
    wakeCount (hx711_event F1 u pin t1).effects
      = wakeCount (hx711_event F2 v pin t2).effects ∧
    (u.hx711_1.invert = v.hx711_1.invert →
      (u.hx711_1.result = v.hx711_1.result ∨
        0 < wakeCount (hx711_event F1 u pin t1).effects) →
      (hx711_event F1 u pin t1).world.hx711_1.result
        = (hx711_event F2 v pin t2).world.hx711_1.result) := by
  obtain ⟨h1, h2, h3⟩ := hc
  have hcap := capture_congr u.hx711_1 v.hx711_1 pin h1 h2
  by_cases hr : u.hx711_1.sample_idx = 0 ∧ pin ≠ 0
  · have hr2 : v.hx711_1.sample_idx = 0 ∧ pin ≠ 0 := by rw [← h1]; exact hr
    rw [event_retry F1 u pin t1 hr.1 hr.2, event_retry F2 v pin t2 hr2.1 hr2.2]
    refine ⟨⟨h1, h2, h3⟩, rfl, rfl, ?_⟩
    intro _ hres
    rcases hres with hres | hres
    · exact hres
    · simp [wakeCount] at hres
  · have hr2 : ¬ (v.hx711_1.sample_idx = 0 ∧ pin ≠ 0) := by rw [← h1]; exact hr
    by_cases hlt : (u.hx711_1.sample_idx + 1) % 2 ^ 32
        < (48 + (2 * u.hx711_1.gain) % 2 ^ 32) % 2 ^ 32
    · have hlt2 : (v.hx711_1.sample_idx + 1) % 2 ^ 32
          < (48 + (2 * v.hx711_1.gain) % 2 ^ 32) % 2 ^ 32 := by rw [← h1, ← h3]; exact hlt
      rw [event_advance F1 u pin t1 hr hlt, event_advance F2 v pin t2 hr2 hlt2]
      refine ⟨⟨by simp only; rw [h1], hcap, h3⟩, by simp only [h1]; rfl, rfl, ?_⟩
      intro _ hres
      rcases hres with hres | hres
      · exact hres
      · simp [wakeCount] at hres
    · have hge : (48 + (2 * u.hx711_1.gain) % 2 ^ 32) % 2 ^ 32
          ≤ (u.hx711_1.sample_idx + 1) % 2 ^ 32 := by omega
      have hge2 : (48 + (2 * v.hx711_1.gain) % 2 ^ 32) % 2 ^ 32
          ≤ (v.hx711_1.sample_idx + 1) % 2 ^ 32 := by rw [← h1, ← h3]; exact hge
      have key : ∀ (r1 r2 : EventResult),
          (r1 = hx711_event F1 u pin t1) → (r2 = hx711_event F2 v pin t2) →
          coreEq r1.world r2.world ∧ clockWrites r1.effects = clockWrites r2.effects ∧
          wakeCount r1.effects = wakeCount r2.effects ∧
          (u.hx711_1.invert = v.hx711_1.invert →
            r1.world.hx711_1.result = r2.world.hx711_1.result) := by
        intro r1 r2 e1 e2
        by_cases ha : u.hx711_1.active = 0 <;> by_cases hb : v.hx711_1.active = 0
        · rw [event_complete_stop F1 u pin t1 hr hge ha] at e1
          rw [event_complete_stop F2 v pin t2 hr2 hge2 hb] at e2
          subst e1 e2
          refine ⟨⟨rfl, rfl, h3⟩, rfl, rfl, fun hi => ?_⟩
          simp only; rw [hcap, hi]
        · rw [event_complete_stop F1 u pin t1 hr hge ha] at e1
          rw [event_complete_go F2 v pin t2 hr2 hge2 hb] at e2
          subst e1 e2
          refine ⟨⟨rfl, rfl, h3⟩, rfl, rfl, fun hi => ?_⟩
          simp only; rw [hcap, hi]
        · rw [event_complete_go F1 u pin t1 hr hge ha] at e1
          rw [event_complete_stop F2 v pin t2 hr2 hge2 hb] at e2
          subst e1 e2
          refine ⟨⟨rfl, rfl, h3⟩, rfl, rfl, fun hi => ?_⟩
          simp only; rw [hcap, hi]
        · rw [event_complete_go F1 u pin t1 hr hge ha] at e1
          rw [event_complete_go F2 v pin t2 hr2 hge2 hb] at e2
          subst e1 e2
          refine ⟨⟨rfl, rfl, h3⟩, rfl, rfl, fun hi => ?_⟩
          simp only; rw [hcap, hi]
      obtain ⟨k1, k2, k3, k4⟩ := key _ _ rfl rfl
      exact ⟨k1, k2, k3, fun hi _ => k4 hi⟩

/-- An invocation never changes `gain`, `invert`, `active`, `oid` or
`endstop_oid`. -/
theorem event_config_fields (F : Nat) (w : World) (pin now : Nat) :
    (hx711_event F w pin now).world.hx711_1.gain = w.hx711_1.gain ∧
    (hx711_event F w pin now).world.hx711_1.invert = w.hx711_1.invert ∧
    (hx711_event F w pin now).world.hx711_1.active = w.hx711_1.active ∧
    (hx711_event F w pin now).world.hx711_1.oid = w.hx711_1.oid ∧
    (hx711_event F w pin now).world.hx711_1.endstop_oid = w.hx711_1.endstop_oid ∧
    (hx711_event F w pin now).world.timer_scheduled = w.timer_scheduled := by
  unfold hx711_event
  simp only
  split_ifs <;> simp

theorem run_config_fields (F : Nat) (w : World) (inp : Nat → Tick) (n : Nat) :
    (runEvents F w inp n).hx711_1.gain = w.hx711_1.gain ∧
    (runEvents F w inp n).hx711_1.invert = w.hx711_1.invert ∧
    (runEvents F w inp n).hx711_1.active = w.hx711_1.active ∧
    (runEvents F w inp n).hx711_1.oid = w.hx711_1.oid ∧
    (runEvents F w inp n).hx711_1.endstop_oid = w.hx711_1.endstop_oid ∧
    (runEvents F w inp n).timer_scheduled = w.timer_scheduled := by
  induction n with
  | zero => exact ⟨rfl, rfl, rfl, rfl, rfl, rfl⟩
  | succ n ih =>
    have h := event_config_fields F (runEvents F w inp n) (inp n).pin (inp n).now
    obtain ⟨a1, a2, a3, a4, a5, a6⟩ := ih
    obtain ⟨b1, b2, b3, b4, b5, b6⟩ := h
    exact ⟨b1.trans a1, b2.trans a2, b3.trans a3, b4.trans a4, b5.trans a5, b6.trans a6⟩

/-- Two runs on the same data-line levels from states that agree on counter,
accumulator and gain stay in agreement; with equal `invert` and equal `result` at
the start, `result` agrees too. -/
theorem run_lockstep (F1 F2 : Nat) (u v : World) (i1 i2 : Nat → Tick)
    (hc : coreEq u v) (hpin : ∀ k, (i1 k).pin = (i2 k).pin) (n : Nat) :
    coreEq (runEvents F1 u i1 n) (runEvents F2 v i2 n) ∧
    clockWrites (nthCall F1 u i1 n).effects = clockWrites (nthCall F2 v i2 n).effects ∧
    wakeCount (nthCall F1 u i1 n).effects = wakeCount (nthCall F2 v i2 n).effects ∧
    (u.hx711_1.invert = v.hx711_1.invert → u.hx711_1.result = v.hx711_1.result →
      (runEvents F1 u i1 n).hx711_1.result = (runEvents F2 v i2 n).hx711_1.result) := by
  induction n with
  | zero =>
    have h := event_lockstep F1 F2 u v (i1 0).pin (i1 0).now (i2 0).now hc
    refine ⟨hc, ?_, ?_, fun _ hr => hr⟩
    · unfold nthCall; rw [← hpin 0]; exact h.2.1
    · unfold nthCall; rw [← hpin 0]; exact h.2.2.1
  | succ n ih =>
    obtain ⟨c1, _, _, c4⟩ := ih
    have h := event_lockstep F1 F2 (runEvents F1 u i1 n) (runEvents F2 v i2 n)
      (i1 n).pin (i1 n).now (i2 n).now c1
    have hcore : coreEq (runEvents F1 u i1 (n + 1)) (runEvents F2 v i2 (n + 1)) := by
      show coreEq (hx711_event F1 _ (i1 n).pin (i1 n).now).world
        (hx711_event F2 _ (i2 n).pin (i2 n).now).world
      rw [← hpin n]; exact h.1
    have h' := event_lockstep F1 F2 (runEvents F1 u i1 (n + 1)) (runEvents F2 v i2 (n + 1))
      (i1 (n + 1)).pin (i1 (n + 1)).now (i2 (n + 1)).now hcore
    refine ⟨hcore, ?_, ?_, ?_⟩
    · unfold nthCall; rw [← hpin (n + 1)]; exact h'.2.1
    · unfold nthCall; rw [← hpin (n + 1)]; exact h'.2.2.1
    · intro hi hr
      show (hx711_event F1 _ (i1 n).pin (i1 n).now).world.hx711_1.result
        = (hx711_event F2 _ (i2 n).pin (i2 n).now).world.hx711_1.result
      rw [← hpin n]
      refine h.2.2.2 ?_ (Or.inl (c4 hi hr))
      rw [(run_config_fields F1 u i1 n).2.1, (run_config_fields F2 v i2 n).2.1]
      exact hi

/-! ## Completion, reports and clock writes -/

/-- A call signals the notifier exactly when it completes a frame, and then
exactly once. -/
theorem completes_iff_wake (F : Nat) (w : World) (pin now : Nat) :
    (completesFrame w pin ↔ wakeCount (hx711_event F w pin now).effects = 1) ∧
    (¬ completesFrame w pin ↔ wakeCount (hx711_event F w pin now).effects = 0) := by
  unfold completesFrame isRetry
  by_cases hr : w.hx711_1.sample_idx = 0 ∧ pin ≠ 0
  · rw [event_retry F w pin now hr.1 hr.2]
    simp [wakeCount, hr]
  · by_cases hlt : (w.hx711_1.sample_idx + 1) % 2 ^ 32
        < (48 + (2 * w.hx711_1.gain) % 2 ^ 32) % 2 ^ 32
    · rw [event_advance F w pin now hr hlt]
      simp only [wakeCount]
      constructor
      · constructor
        · rintro ⟨_, h⟩; omega
        · intro h; simp at h
      · constructor
        · intro _; simp
        · rintro _ ⟨_, h⟩; omega
    · have hge : (48 + (2 * w.hx711_1.gain) % 2 ^ 32) % 2 ^ 32
          ≤ (w.hx711_1.sample_idx + 1) % 2 ^ 32 := by omega
      by_cases ha : w.hx711_1.active = 0
      · rw [event_complete_stop F w pin now hr hge ha]
        simp only [wakeCount]
        constructor
        · exact ⟨fun _ => by simp, fun _ => ⟨hr, hge⟩⟩
        · constructor
          · intro h; exact absurd ⟨hr, hge⟩ h
          · intro h; simp at h
      · rw [event_complete_go F w pin now hr hge ha]
        simp only [wakeCount]
        constructor
        · exact ⟨fun _ => by simp, fun _ => ⟨hr, hge⟩⟩
        · constructor
          · intro h; exact absurd ⟨hr, hge⟩ h
          · intro h; simp at h

/-- With the flag set, a task pass sends exactly one report, of the current
`oid`, `waketime` and `result`. -/
theorem task_reports_set (w : World) (hwake : w.hx711_wake = true) :
    reports (hx711_task w).2 = [(w.hx711_1.oid, w.hx711_1.waketime, w.hx711_1.result)] ∧
    (hx711_task w).1.hx711_wake = false := by
  by_cases he : w.hx711_1.endstop_oid ≥ 0
  · simp [hx711_task, sched_check_wake, hwake, he, reports]
  · simp [hx711_task, sched_check_wake, hwake, he, reports]

/-- With the flag clear, a task pass does nothing. -/
theorem task_clear (w : World) (hwake : w.hx711_wake = false) :
    hx711_task w = (w, []) := by
  unfold hx711_task sched_check_wake
  simp only [hwake]
  rw [if_pos trivial, ← hwake]

theorem clockWrites_append (xs ys : List Effect) :
    clockWrites (xs ++ ys) = clockWrites xs ++ clockWrites ys := by
  induction xs with
  | nil => rfl
  | cons x xs ih => cases x <;> simp [clockWrites, ih]

/-- Clock writes of the first `k` invocations of a frame. -/
theorem frame_clock_writes (F : Nat) (w : World) (inp : Nat → Tick)
    (hN : 48 + 2 * w.hx711_1.gain < 2 ^ 32)
    (h0 : w.hx711_1.sample_idx = 0) (hp : (inp 0).pin = 0) :
    ∀ k, k ≤ 48 + 2 * w.hx711_1.gain →
      clockWrites (runEffects F w inp k) = (List.range k).map pulseLevel := by
  intro k
  induction k with
  | zero => intro _; rfl
  | succ k ih =>
    intro hk
    have hprev := ih (by omega)
    have hcall : clockWrites (nthCall F w inp k).effects = [pulseLevel k] := by
      by_cases hlast : k + 1 = 48 + 2 * w.hx711_1.gain
      · rw [(frame_result F w inp hN (fun _ => hp) k (by omega)).2.2.2.2.2]
        unfold pulseLevel
        rw [if_neg (by omega)]
      · rw [nthCall_advance F w inp hN (fun _ => hp) k (by omega), h0, Nat.zero_add]
        unfold pulseLevel
        by_cases hpar : k % 2 = 0 <;> simp [clockWrites, hpar]
    show clockWrites (runEffects F w inp k ++ (nthCall F w inp k).effects) = _
    rw [clockWrites_append, hprev, hcall, List.range_succ, List.map_append]
    rfl

/-! ## Results and the notifier flag along a run -/

/-- A call that does not complete a frame leaves `result` and the flag alone; a
call that completes one sets the flag; no call clears the flag. -/
theorem event_result_flag (F : Nat) (w : World) (pin now : Nat) :
    (¬ completesFrame w pin →
      (hx711_event F w pin now).world.hx711_1.result = w.hx711_1.result ∧
      (hx711_event F w pin now).world.hx711_wake = w.hx711_wake) ∧
    (completesFrame w pin → (hx711_event F w pin now).world.hx711_wake = true) ∧
    (w.hx711_wake = true → (hx711_event F w pin now).world.hx711_wake = true) := by
  by_cases hr : w.hx711_1.sample_idx = 0 ∧ pin ≠ 0
  · have hnc : ¬ completesFrame w pin := fun h => h.1 hr
    rw [event_retry F w pin now hr.1 hr.2]
    exact ⟨fun _ => ⟨rfl, rfl⟩, fun h => absurd h hnc, fun h => h⟩
  · by_cases hlt : (w.hx711_1.sample_idx + 1) % 2 ^ 32
        < (48 + (2 * w.hx711_1.gain) % 2 ^ 32) % 2 ^ 32
    · have hnc : ¬ completesFrame w pin := fun h => absurd h.2 (by omega)
      rw [event_advance F w pin now hr hlt]
      exact ⟨fun _ => ⟨rfl, rfl⟩, fun h => absurd h hnc, fun h => h⟩
    · have hc : completesFrame w pin := ⟨hr, by omega⟩
      by_cases ha : w.hx711_1.active = 0
      · rw [event_complete_stop F w pin now hr hc.2 ha]
        exact ⟨fun h => absurd hc h, fun _ => rfl, fun _ => rfl⟩
      · rw [event_complete_go F w pin now hr hc.2 ha]
        exact ⟨fun h => absurd hc h, fun _ => rfl, fun _ => rfl⟩

/-- After a completing call `j`, as long as no later call completes a frame, the
flag stays set and `result` stays what call `j` stored. -/
theorem run_after_completion (F : Nat) (w : World) (inp : Nat → Tick) (j : Nat)
    (hc : completesFrame (runEvents F w inp j) (inp j).pin) :
    ∀ n, j < n →
      (∀ k, j < k → k < n → ¬ completesFrame (runEvents F w inp k) (inp k).pin) →
      (runEvents F w inp n).hx711_wake = true ∧
      (runEvents F w inp n).hx711_1.result = (runEvents F w inp (j + 1)).hx711_1.result := by
  intro n
  induction n with
  | zero => intro h; omega
  | succ n ih =>
    intro hjn hno
    by_cases hjn' : j = n
    · subst hjn'
      exact ⟨(event_result_flag F _ _ _).2.1 hc, rfl⟩
    · have hprev := ih (by omega) (fun k h1 h2 => hno k h1 (by omega))
      have hstep := (event_result_flag F (runEvents F w inp n) (inp n).pin (inp n).now).1
        (hno n (by omega) (by omega))
      exact ⟨hstep.2.trans hprev.1, hstep.1.trans hprev.2⟩

/-- The accumulator stays in the range of `int32_t`. -/
theorem capture_range (h : hx711) (pin : Nat)
    (hs : -2 ^ 31 ≤ h.sample ∧ h.sample < 2 ^ 31) :
    -2 ^ 31 ≤ capture h pin ∧ capture h pin < 2 ^ 31 := by
  unfold capture
  split
  · unfold toI32; split <;> omega
  · exact hs

theorem event_sample_range (F : Nat) (w : World) (pin now : Nat)
    (hs : -2 ^ 31 ≤ w.hx711_1.sample ∧ w.hx711_1.sample < 2 ^ 31) :
    -2 ^ 31 ≤ (hx711_event F w pin now).world.hx711_1.sample ∧
    (hx711_event F w pin now).world.hx711_1.sample < 2 ^ 31 := by
  by_cases hr : w.hx711_1.sample_idx = 0 ∧ pin ≠ 0
  · rw [event_retry F w pin now hr.1 hr.2]; exact hs
  · by_cases hlt : (w.hx711_1.sample_idx + 1) % 2 ^ 32
        < (48 + (2 * w.hx711_1.gain) % 2 ^ 32) % 2 ^ 32
    · rw [event_advance F w pin now hr hlt]; exact capture_range _ _ hs
    · by_cases ha : w.hx711_1.active = 0
      · rw [event_complete_stop F w pin now hr (by omega) ha]; simp
      · rw [event_complete_go F w pin now hr (by omega) ha]; simp

theorem run_sample_range (F : Nat) (w : World) (inp : Nat → Tick)
    (hs : -2 ^ 31 ≤ w.hx711_1.sample ∧ w.hx711_1.sample < 2 ^ 31) (n : Nat) :
    -2 ^ 31 ≤ (runEvents F w inp n).hx711_1.sample ∧
    (runEvents F w inp n).hx711_1.sample < 2 ^ 31 := by
  induction n with
  | zero => exact hs
  | succ n ih => exact event_sample_range F _ _ _ ih

/-- Range of an `int32_t` shifted right by 8. -/
theorem shr8_range (x : Int) (hx : -2 ^ 31 ≤ x ∧ x < 2 ^ 31) :
    -2 ^ 23 ≤ x >>> (8 : Nat) ∧ x >>> (8 : Nat) < 2 ^ 23 := by
  rw [shr8]; omega

/-- Two runs on the same data-line levels, from states that agree on counter,
accumulator, gain and `invert`: once a call has completed a frame, the stored
results agree, whatever they were before. -/
theorem run_result_after_completion (F1 F2 : Nat) (u v : World) (i1 i2 : Nat → Tick)
    (hc : coreEq u v) (hi : u.hx711_1.invert = v.hx711_1.invert)
    (hpin : ∀ k, (i1 k).pin = (i2 k).pin) :
    ∀ n, (∃ k, k < n ∧ completesFrame (runEvents F1 u i1 k) (i1 k).pin) →
      (runEvents F1 u i1 n).hx711_1.result = (runEvents F2 v i2 n).hx711_1.result := by
  intro n
  induction n with
  | zero => rintro ⟨k, hk, _⟩; omega
  | succ n ih =>
    rintro ⟨k, hk, hck⟩
    have hcore := (run_lockstep F1 F2 u v i1 i2 hc hpin n).1
    have hstep := (event_lockstep F1 F2 (runEvents F1 u i1 n) (runEvents F2 v i2 n)
      (i1 n).pin (i1 n).now (i2 n).now hcore).2.2.2
      (by rw [(run_config_fields F1 u i1 n).2.1, (run_config_fields F2 v i2 n).2.1]; exact hi)
    show (hx711_event F1 _ (i1 n).pin (i1 n).now).world.hx711_1.result
      = (hx711_event F2 _ (i2 n).pin (i2 n).now).world.hx711_1.result
    rw [← hpin n]
    apply hstep
    by_cases hkn : k = n
    · subst hkn
      right
      rw [((completes_iff_wake F1 _ _ (i1 k).now).1).mp hck]
      norm_num
    · left
      exact ih ⟨k, by omega, hck⟩

/-! ## Independence of the time read -/

/-- One invocation from two states that differ at most in `waketime`, with the
same data-line level and different times: the resulting states differ at most in
`waketime`, and return code, clock writes and notifier signals agree. -/
theorem event_time_indep (F : Nat) (v : World) (t pin t1 t2 : Nat) :
    (hx711_event F (setWaketime v t) pin t1).world =
      setWaketime (hx711_event F v pin t2).world
        (hx711_event F (setWaketime v t) pin t1).world.hx711_1.waketime ∧
    (hx711_event F (setWaketime v t) pin t1).ret = (hx711_event F v pin t2).ret ∧
    clockWrites (hx711_event F (setWaketime v t) pin t1).effects
      = clockWrites (hx711_event F v pin t2).effects ∧
    wakeCount (hx711_event F (setWaketime v t) pin t1).effects
      = wakeCount (hx711_event F v pin t2).effects := by
  by_cases hr : v.hx711_1.sample_idx = 0 ∧ pin ≠ 0
  · rw [event_retry F (setWaketime v t) pin t1 hr.1 hr.2, event_retry F v pin t2 hr.1 hr.2]
    exact ⟨rfl, rfl, rfl, rfl⟩
  · by_cases hlt : (v.hx711_1.sample_idx + 1) % 2 ^ 32
        < (48 + (2 * v.hx711_1.gain) % 2 ^ 32) % 2 ^ 32
    · rw [event_advance F (setWaketime v t) pin t1 hr hlt, event_advance F v pin t2 hr hlt]
      exact ⟨rfl, rfl, rfl, rfl⟩
    · have hge : (48 + (2 * v.hx711_1.gain) % 2 ^ 32) % 2 ^ 32
          ≤ (v.hx711_1.sample_idx + 1) % 2 ^ 32 := by omega
      by_cases ha : v.hx711_1.active = 0
      · rw [event_complete_stop F (setWaketime v t) pin t1 hr hge ha,
          event_complete_stop F v pin t2 hr hge ha]
        exact ⟨rfl, rfl, rfl, rfl⟩
      · rw [event_complete_go F (setWaketime v t) pin t1 hr hge ha,
          event_complete_go F v pin t2 hr hge ha]
        exact ⟨rfl, rfl, rfl, rfl⟩

theorem setWaketime_self (w : World) : setWaketime w w.hx711_1.waketime = w := rfl

/-- Two runs from the same state on the same data-line levels, with arbitrary
times: after any number of invocations the states differ at most in `waketime`. -/
theorem run_time_indep (F : Nat) (w : World) (i1 i2 : Nat → Tick)
    (hpin : ∀ k, (i1 k).pin = (i2 k).pin) :
    ∀ n, runEvents F w i1 n =
      setWaketime (runEvents F w i2 n) (runEvents F w i1 n).hx711_1.waketime := by
  intro n
  induction n with
  | zero => rfl
  | succ n ih =>
    have h := (event_time_indep F (runEvents F w i2 n) (runEvents F w i1 n).hx711_1.waketime
      (i1 n).pin (i1 n).now (i2 n).now).1
    rw [← ih, hpin n] at h
    show (hx711_event F (runEvents F w i1 n) (i1 n).pin (i1 n).now).world =
      setWaketime (hx711_event F (runEvents F w i2 n) (i2 n).pin (i2 n).now).world
        (hx711_event F (runEvents F w i1 n) (i1 n).pin (i1 n).now).world.hx711_1.waketime
    rw [hpin n]
    exact h

/-! ## The statement-level view -/

/-- The statement list and the function `hx711_event` agree: same calls in the
same order, and the last assignment leaves the device record of the result. -/
theorem stmts_agree (F : Nat) (w : World) (pin now : Nat) :
    stmtCalls (hx711_event_stmts F w pin now) = (hx711_event F w pin now).effects ∧
    lastAssign w.hx711_1 (hx711_event_stmts F w pin now)
      = (hx711_event F w pin now).world.hx711_1 := by
  by_cases hr : w.hx711_1.sample_idx = 0 ∧ pin ≠ 0
  · rw [event_retry F w pin now hr.1 hr.2]
    unfold hx711_event_stmts
    simp only
    rw [if_pos hr]
    exact ⟨rfl, rfl⟩
  · by_cases hlt : (w.hx711_1.sample_idx + 1) % 2 ^ 32
        < (48 + (2 * w.hx711_1.gain) % 2 ^ 32) % 2 ^ 32
    · rw [event_advance F w pin now hr hlt]
      have hnge : ¬ ((48 + (2 * w.hx711_1.gain) % 2 ^ 32) % 2 ^ 32
          ≤ (w.hx711_1.sample_idx + 1) % 2 ^ 32) := by omega
      unfold hx711_event_stmts
      simp only [ge_iff_le]
      rw [if_neg hr, if_neg hnge]
      by_cases hc : w.hx711_1.sample_idx % 2 ≠ 0 ∧ w.hx711_1.sample_idx < 48
      · rw [if_pos hc]; exact ⟨rfl, rfl⟩
      · rw [if_neg hc]; exact ⟨rfl, rfl⟩
    · have hge : (48 + (2 * w.hx711_1.gain) % 2 ^ 32) % 2 ^ 32
          ≤ (w.hx711_1.sample_idx + 1) % 2 ^ 32 := by omega
      by_cases ha : w.hx711_1.active = 0
      · rw [event_complete_stop F w pin now hr hge ha]
        unfold hx711_event_stmts
        simp only [ge_iff_le]
        rw [if_neg hr, if_pos hge, if_pos ha]
        by_cases hc : w.hx711_1.sample_idx % 2 ≠ 0 ∧ w.hx711_1.sample_idx < 48
        · rw [if_pos hc]; exact ⟨rfl, rfl⟩
        · rw [if_neg hc]; exact ⟨rfl, rfl⟩
      · rw [event_complete_go F w pin now hr hge ha]
        unfold hx711_event_stmts
        simp only [ge_iff_le]
        rw [if_neg hr, if_pos hge, if_neg ha]
        by_cases hc : w.hx711_1.sample_idx % 2 ≠ 0 ∧ w.hx711_1.sample_idx < 48
        · rw [if_pos hc]; exact ⟨rfl, rfl⟩
        · rw [if_neg hc]; exact ⟨rfl, rfl⟩

/-! ## States reached after configuration -/

/-- The two branches of `command_query_hx711`. -/
theorem query_enable_eq (F : Nat) (w : World) (a : Nat → Nat) (t : Nat) (ha : a 1 ≠ 0) :
    command_query_hx711 F a t w =
      ({ w with
          hx711_1 := { w.hx711_1 with
            endstop_oid := toI32 (a 2), active := a 1, sample_idx := 0, sample := 0,
            waketime := (t + NO_DATA_RETRY_DELAY F) % 2 ^ 32 },
          timer_scheduled := true },
       [Effect.sched_del_timer, Effect.gpio_out_write 0, Effect.timer_read_time t,
        Effect.sched_add_timer]) := by
  unfold command_query_hx711
  simp only
  rw [if_pos ha]

theorem query_disable_eq (F : Nat) (w : World) (a : Nat → Nat) (t : Nat) (ha : a 1 = 0) :
    command_query_hx711 F a t w =
      ({ w with hx711_1 :=
          { w.hx711_1 with endstop_oid := toI32 (a 2), active := a 1 } }, []) := by
  unfold command_query_hx711
  simp only
  rw [if_neg (by simpa using ha)]

/-- A step changes neither `gain` nor `invert` nor `oid`. -/
theorem applyAction_config (F : Nat) (w : World) (a : Action) :
    (applyAction F w a).hx711_1.gain = w.hx711_1.gain ∧
    (applyAction F w a).hx711_1.invert = w.hx711_1.invert ∧
    (applyAction F w a).hx711_1.oid = w.hx711_1.oid := by
  cases a with
  | query args now =>
    simp only [applyAction]
    by_cases ha : args 1 = 0
    · rw [query_disable_eq F w args now ha]; exact ⟨rfl, rfl, rfl⟩
    · rw [query_enable_eq F w args now ha]; exact ⟨rfl, rfl, rfl⟩
  | event pin now =>
    have h := event_config_fields F w pin now
    exact ⟨h.1, h.2.1, h.2.2.2.1⟩

theorem runActions_config (F : Nat) (acts : List Action) :
    ∀ w : World,
      (runActions F w acts).hx711_1.gain = w.hx711_1.gain ∧
      (runActions F w acts).hx711_1.invert = w.hx711_1.invert ∧
      (runActions F w acts).hx711_1.oid = w.hx711_1.oid := by
  induction acts with
  | nil => intro w; exact ⟨rfl, rfl, rfl⟩
  | cons a rest ih =>
    intro w
    have h1 := ih (applyAction F w a)
    have h2 := applyAction_config F w a
    exact ⟨h1.1.trans h2.1, h1.2.1.trans h2.2.1, h1.2.2.trans h2.2.2⟩

/-- An invocation of the callback preserves `ReachInv`. -/
theorem event_ReachInv (F : Nat) (w : World) (pin now : Nat) (hi : ReachInv w) :
    ReachInv (hx711_event F w pin now).world := by
  obtain ⟨h1, h2⟩ := hi
  by_cases hr : w.hx711_1.sample_idx = 0 ∧ pin ≠ 0
  · rw [event_retry F w pin now hr.1 hr.2]
    exact ⟨h1, h2⟩
  · by_cases hlt : (w.hx711_1.sample_idx + 1) % 2 ^ 32
        < (48 + (2 * w.hx711_1.gain) % 2 ^ 32) % 2 ^ 32
    · rw [event_advance F w pin now hr hlt]
      refine ⟨Or.inr hlt, ?_⟩
      intro h0
      simp only at h0
      omega
    · by_cases ha : w.hx711_1.active = 0
      · rw [event_complete_stop F w pin now hr (by omega) ha]
        exact ⟨Or.inl rfl, fun _ => rfl⟩
      · rw [event_complete_go F w pin now hr (by omega) ha]
        exact ⟨Or.inl rfl, fun _ => rfl⟩

theorem applyAction_ReachInv (F : Nat) (w : World) (a : Action) (hi : ReachInv w) :
    ReachInv (applyAction F w a) := by
  cases a with
  | query args now =>
    show ReachInv (command_query_hx711 F args now w).1
    by_cases ha : args 1 = 0
    · rw [query_disable_eq F w args now ha]; exact hi
    · rw [query_enable_eq F w args now ha]; exact ⟨Or.inl rfl, fun _ => rfl⟩
  | event pin now => exact event_ReachInv F w pin now hi

theorem runActions_ReachInv (F : Nat) (acts : List Action) :
    ∀ w : World, ReachInv w → ReachInv (runActions F w acts) := by
  induction acts with
  | nil => intro w hi; exact hi
  | cons a rest ih => intro w hi; exact ih _ (applyAction_ReachInv F w a hi)

/-- Every state reached after configuration satisfies `ReachInv`. -/
theorem reach_ReachInv (F : Nat) (args : Nat → Nat) (fresh : hx711) (boot : World)
    (acts : List Action) :
    ReachInv (runActions F (command_config_hx711 args fresh boot).1 acts) :=
  runActions_ReachInv F acts _ ⟨Or.inl rfl, fun _ => rfl⟩

/-! ## The capture step, bit by bit -/

/-- On a capture half-cycle the read bit is ORed in at position `31 -
sample_idx/2`; all other bits of the accumulator are kept. -/
theorem capture_bits (h : hx711) (pin : Nat)
    (hc : h.sample_idx % 2 ≠ 0 ∧ h.sample_idx < 48) (hp : pin ≤ 1)
    (i : Nat) :
    (toU32 (capture h pin)).testBit i =
      ((toU32 h.sample).testBit i ||
        (decide (i = 31 - h.sample_idx / 2) && decide (pin = 1))) := by
  unfold capture
  rw [if_pos hc, toU32_toI32 _ (Nat.or_lt_two_pow (toU32_lt _) (Nat.mod_lt _ (by norm_num))),
    Nat.testBit_or]
  congr 1
  have hk : 31 - h.sample_idx / 2 < 32 := by omega
  rcases Nat.le_one_iff_eq_zero_or_eq_one.mp hp with h0 | h1
  · subst h0
    simp
  · subst h1
    rw [Nat.one_shiftLeft, Nat.mod_eq_of_lt (Nat.pow_lt_pow_right (by norm_num) hk),
      Nat.testBit_two_pow]
    simp [eq_comm]

/-- Off the capture half-cycles the read value is not used by the capture step. -/
theorem capture_skip (h : hx711) (pin : Nat)
    (hc : h.sample_idx % 2 = 0 ∨ 48 ≤ h.sample_idx) :
    capture h pin = h.sample := by
  unfold capture
  rw [if_neg (by omega)]

/-- The accumulator after an invocation. -/
theorem event_sample_eq (F : Nat) (w : World) (pin now : Nat) :
    (hx711_event F w pin now).world.hx711_1.sample =
      if completesFrame w pin then 0
      else if isRetry w pin then w.hx711_1.sample
      else capture w.hx711_1 pin := by
  by_cases hr : w.hx711_1.sample_idx = 0 ∧ pin ≠ 0
  · have hret : isRetry w pin := hr
    have hnc : ¬ completesFrame w pin := fun h => h.1 hr
    rw [event_retry F w pin now hr.1 hr.2, if_neg hnc, if_pos hret]
  · have hret : ¬ isRetry w pin := hr
    by_cases hlt : (w.hx711_1.sample_idx + 1) % 2 ^ 32
        < (48 + (2 * w.hx711_1.gain) % 2 ^ 32) % 2 ^ 32
    · have hnc : ¬ completesFrame w pin := fun h => absurd h.2 (by omega)
      rw [event_advance F w pin now hr hlt, if_neg hnc, if_neg hret]
    · have hc : completesFrame w pin := ⟨hr, by omega⟩
      by_cases ha : w.hx711_1.active = 0
      · rw [event_complete_stop F w pin now hr hc.2 ha, if_pos hc]
      · rw [event_complete_go F w pin now hr hc.2 ha, if_pos hc]

/-- The GPIO accesses of an invocation: the read of the data line, then at most
one write of the clock line. -/
theorem event_gpioOps (F : Nat) (w : World) (pin now : Nat) :
    gpioOps (hx711_event F w pin now).effects = [Effect.gpio_in_read pin] ∨
    ∃ v, gpioOps (hx711_event F w pin now).effects
      = [Effect.gpio_in_read pin, Effect.gpio_out_write v] := by
  by_cases hr : w.hx711_1.sample_idx = 0 ∧ pin ≠ 0
  · rw [event_retry F w pin now hr.1 hr.2]
    exact Or.inl rfl
  · by_cases hlt : (w.hx711_1.sample_idx + 1) % 2 ^ 32
        < (48 + (2 * w.hx711_1.gain) % 2 ^ 32) % 2 ^ 32
    · rw [event_advance F w pin now hr hlt]
      exact Or.inr ⟨_, rfl⟩
    · by_cases ha : w.hx711_1.active = 0
      · rw [event_complete_stop F w pin now hr (by omega) ha]
        exact Or.inr ⟨_, rfl⟩
      · rw [event_complete_go F w pin now hr (by omega) ha]
        exact Or.inr ⟨_, rfl⟩

/-! ## Frames for an arbitrary gain -/

/-- From a frame start with the data line low, for any gain: as long as `k` is
below the threshold `(48 + 2*gain) mod 2^32`, the first `k` invocations advance
the counter to `k`. -/
theorem thr_progress (F : Nat) (w : World) (inp : Nat → Tick)
    (h0 : w.hx711_1.sample_idx = 0) (hp : (inp 0).pin = 0) :
    ∀ k, k < (48 + (2 * w.hx711_1.gain) % 2 ^ 32) % 2 ^ 32 →
      (runEvents F w inp k).hx711_1.sample_idx = k := by
  intro k
  induction k with
  | zero => intro _; exact h0
  | succ k ih =>
    intro hk
    have hidx := ih (by omega)
    have hgain := (run_config_fields F w inp k).1
    have hr : ¬ ((runEvents F w inp k).hx711_1.sample_idx = 0 ∧ (inp k).pin ≠ 0) := by
      rw [hidx]
      rintro ⟨h1, h2⟩
      subst h1
      exact h2 hp
    show (hx711_event F (runEvents F w inp k) (inp k).pin (inp k).now).world.hx711_1.sample_idx
      = k + 1
    rw [event_advance F _ _ _ hr (by rw [hidx, hgain]; omega)]
    simp only
    rw [hidx]
    omega

/-- Which invocation of such a frame completes it. -/
theorem thr_completion (F : Nat) (w : World) (inp : Nat → Tick)
    (h0 : w.hx711_1.sample_idx = 0) (hp : (inp 0).pin = 0) :
    (∀ k, k + 1 < (48 + (2 * w.hx711_1.gain) % 2 ^ 32) % 2 ^ 32 →
      ¬ completesFrame (runEvents F w inp k) (inp k).pin) ∧
    completesFrame
      (runEvents F w inp (max 1 ((48 + (2 * w.hx711_1.gain) % 2 ^ 32) % 2 ^ 32) - 1))
      (inp (max 1 ((48 + (2 * w.hx711_1.gain) % 2 ^ 32) % 2 ^ 32) - 1)).pin := by
  constructor
  · intro k hk
    have hidx := thr_progress F w inp h0 hp k (by omega)
    have hgain := (run_config_fields F w inp k).1
    rintro ⟨_, hge⟩
    rw [hidx, hgain] at hge
    omega
  · by_cases hT : (48 + (2 * w.hx711_1.gain) % 2 ^ 32) % 2 ^ 32 = 0
    · rw [hT]
      refine ⟨?_, ?_⟩
      · rintro ⟨_, h2⟩
        exact h2 hp
      · show (48 + (2 * w.hx711_1.gain) % 2 ^ 32) % 2 ^ 32 ≤ _
        rw [hT]
        exact Nat.zero_le _
    · have hmax : max 1 ((48 + (2 * w.hx711_1.gain) % 2 ^ 32) % 2 ^ 32) - 1
          = (48 + (2 * w.hx711_1.gain) % 2 ^ 32) % 2 ^ 32 - 1 := by omega
      rw [hmax]
      have hidx := thr_progress F w inp h0 hp
        ((48 + (2 * w.hx711_1.gain) % 2 ^ 32) % 2 ^ 32 - 1) (by omega)
      have hgain := (run_config_fields F w inp
        ((48 + (2 * w.hx711_1.gain) % 2 ^ 32) % 2 ^ 32 - 1)).1
      refine ⟨?_, ?_⟩
      · unfold isRetry
        rw [hidx]
        rintro ⟨h1, _⟩
        omega
      · rw [hidx, hgain]
        omega

/-! ## The accumulator in reached states -/

theorem testBit_of_mod_zero (x m i : Nat) (h : x % 2 ^ m = 0) (hi : i < m) :
    x.testBit i = false := by
  have := Nat.testBit_mod_two_pow x m i
  rw [h, Nat.zero_testBit] at this
  simpa [hi] using this.symm

theorem mod_zero_of_le (x a b : Nat) (h : x % 2 ^ a = 0) (hba : b ≤ a) :
    x % 2 ^ b = 0 :=
  Nat.mod_eq_zero_of_dvd
    (Nat.dvd_trans (Nat.pow_dvd_pow 2 hba) (Nat.dvd_of_mod_eq_zero h))

theorem toU32_zero : toU32 0 = 0 := by decide

/-- The capture step keeps the low bits clear. -/
theorem capture_low_bits (h : hx711) (pin : Nat)
    (hc : h.sample_idx % 2 ≠ 0 ∧ h.sample_idx < 48) (hp : pin ≤ 1)
    (hs : toU32 h.sample % 2 ^ (32 - h.sample_idx / 2) = 0) :
    toU32 (capture h pin) % 2 ^ (32 - (h.sample_idx / 2 + 1)) = 0 := by
  obtain ⟨v, hv⟩ := Nat.dvd_of_mod_eq_zero hs
  unfold capture
  rw [if_pos hc, toU32_toI32 _ (Nat.or_lt_two_pow (toU32_lt _) (Nat.mod_lt _ (by norm_num))),
    hv, or_capture v pin (h.sample_idx / 2) (by omega) hp]
  exact Nat.mul_mod_right _ _

/-- An invocation reading 0 or 1 preserves `BitInv`, the counter being in
range. -/
theorem event_BitInv (F : Nat) (w : World) (pin now : Nat) (hp : pin ≤ 1)
    (hr : ReachInv w) (hi : BitInv w) :
    BitInv (hx711_event F w pin now).world := by
  obtain ⟨hrange, hbits⟩ := hi
  by_cases hret : w.hx711_1.sample_idx = 0 ∧ pin ≠ 0
  · rw [event_retry F w pin now hret.1 hret.2]
    exact ⟨hrange, hbits⟩
  · by_cases hlt : (w.hx711_1.sample_idx + 1) % 2 ^ 32
        < (48 + (2 * w.hx711_1.gain) % 2 ^ 32) % 2 ^ 32
    · rw [event_advance F w pin now hret hlt]
      have hnowrap : (w.hx711_1.sample_idx + 1) % 2 ^ 32 = w.hx711_1.sample_idx + 1 := by
        have := hr.1
        omega
      refine ⟨capture_range _ _ hrange, ?_⟩
      simp only
      rw [hnowrap]
      by_cases hc : w.hx711_1.sample_idx % 2 ≠ 0 ∧ w.hx711_1.sample_idx < 48
      · have e1 : min (w.hx711_1.sample_idx / 2) 24 = w.hx711_1.sample_idx / 2 := by omega
        have e2 : min ((w.hx711_1.sample_idx + 1) / 2) 24
            = w.hx711_1.sample_idx / 2 + 1 := by omega
        rw [e1] at hbits
        rw [e2]
        exact capture_low_bits _ _ hc hp hbits
      · have e : min ((w.hx711_1.sample_idx + 1) / 2) 24
            = min (w.hx711_1.sample_idx / 2) 24 := by omega
        rw [e, capture_skip _ _ (by omega)]
        exact hbits
    · by_cases ha : w.hx711_1.active = 0
      · rw [event_complete_stop F w pin now hret (by omega) ha]
        exact ⟨by norm_num, by simp only; rw [toU32_zero]; rfl⟩
      · rw [event_complete_go F w pin now hret (by omega) ha]
        exact ⟨by norm_num, by simp only; rw [toU32_zero]; rfl⟩

theorem query_BitInv (F : Nat) (w : World) (args : Nat → Nat) (now : Nat)
    (hi : BitInv w) : BitInv (command_query_hx711 F args now w).1 := by
  by_cases ha : args 1 = 0
  · rw [query_disable_eq F w args now ha]; exact hi
  · rw [query_enable_eq F w args now ha]
    exact ⟨by norm_num, by simp only; rw [toU32_zero]; rfl⟩

theorem runActions_BitInv (F : Nat) (acts : List Action) :
    ∀ w : World, bitReads acts → ReachInv w → BitInv w →
      BitInv (runActions F w acts) := by
  induction acts with
  | nil => intro w _ _ hi; exact hi
  | cons a rest ih =>
    intro w hb hr hi
    cases a with
    | query args now =>
      exact ih _ hb (applyAction_ReachInv F w _ hr) (query_BitInv F w args now hi)
    | event pin now =>
      exact ih _ hb.2 (applyAction_ReachInv F w _ hr) (event_BitInv F w pin now hb.1 hr hi)

/-- Every state reached after configuration on reads 0 or 1 satisfies `BitInv`. -/
theorem reach_BitInv (F : Nat) (args : Nat → Nat) (fresh : hx711) (boot : World)
    (acts : List Action) (hb : bitReads acts) :
    BitInv (runActions F (command_config_hx711 args fresh boot).1 acts) :=
  runActions_BitInv F acts _ hb ⟨Or.inl rfl, fun _ => rfl⟩
    ⟨by norm_num [command_config_hx711], by
      simp only [command_config_hx711]; rw [toU32_zero]; rfl⟩

/-! ## The claims -/

/-- C1. Bit packing and sign extension: for gain 1, 2 or 3 and any 24 bits
`b 0 .. b 23` (each 0 or 1), starting from a frame start (`sample_idx = 0`,
`sample = 0`) with `invert = 1`, if the data line reads low on the first call and
`b i` on the capture call entered with `sample_idx = 2*i + 1` (whatever it reads on
the other calls), then the call number `48 + 2*gain` signals the notifier and
leaves in `result` the two's-complement value `sum (b i * 2^(23-i)) - b 0 * 2^24`.
In particular all ones gives `-1`, a one followed by 23 zeros gives `-2^23`, and a
zero followed by 23 ones gives `2^23 - 1`. -/
theorem C1_bit_packing_sign_extension (F : Nat) (w : World) (inp : Nat → Tick)
    (b : Nat → Nat)
    (hg : w.hx711_1.gain = 1 ∨ w.hx711_1.gain = 2 ∨ w.hx711_1.gain = 3)
    (h0 : w.hx711_1.sample_idx = 0) (hs0 : w.hx711_1.sample = 0)
    (hinv : w.hx711_1.invert = 1)
    (hb : ∀ i, i < 24 → b i ≤ 1)
    (hp : (inp 0).pin = 0)
    (hin : ∀ i, i < 24 → (inp (2 * i + 1)).pin = b i) :
    Effect.sched_wake_task ∈ (nthCall F w inp (47 + 2 * w.hx711_1.gain)).effects ∧
    (runEvents F w inp (48 + 2 * w.hx711_1.gain)).hx711_1.result
      = (∑ i ∈ Finset.range 24, (b i : Int) * 2 ^ (23 - i)) - (b 0 : Int) * 2 ^ 24 ∧
    ((∀ i, i < 24 → b i = 1) →
      (runEvents F w inp (48 + 2 * w.hx711_1.gain)).hx711_1.result = -1) ∧
    ((b 0 = 1 ∧ ∀ i, 1 ≤ i → i < 24 → b i = 0) →
      (runEvents F w inp (48 + 2 * w.hx711_1.gain)).hx711_1.result = -2 ^ 23) ∧
    ((b 0 = 0 ∧ ∀ i, 1 ≤ i → i < 24 → b i = 1) →
      (runEvents F w inp (48 + 2 * w.hx711_1.gain)).hx711_1.result = 2 ^ 23 - 1) := by
  have hN : 48 + 2 * w.hx711_1.gain < 2 ^ 32 := by omega
  have hres := frame_result_bits F w inp b hN h0 hs0 hp hb hin
  have hrange := signed_range b hb
  rw [hinv, mul_one, wrapI32_of_range _ (by have := hrange.1; omega)
    (by have := hrange.2; omega)] at hres
  refine ⟨?_, hres, ?_, ?_, ?_⟩
  · by_cases ha : w.hx711_1.active = 0
    · rw [nthCall_complete_stop F w inp hN (fun _ => hp) ha _ (by omega)]; simp
    · rw [nthCall_complete_go F w inp hN (fun _ => hp) ha _ (by omega)]; simp
  · intro h1
    rw [hres, Finset.sum_congr rfl (fun i hi => by rw [h1 i (Finset.mem_range.mp hi)]), h1 0 (by norm_num)]
    simp [Finset.sum_range_succ]
  · rintro ⟨h1, hz⟩
    rw [hres, Finset.sum_range_succ', h1,
      Finset.sum_congr rfl (fun i hi => by
        rw [hz (i + 1) (by omega) (by have := Finset.mem_range.mp hi; omega)])]
    simp
  · rintro ⟨hz, h1⟩
    rw [hres, Finset.sum_range_succ', hz,
      Finset.sum_congr rfl (fun i hi => by
        rw [h1 (i + 1) (by omega) (by have := Finset.mem_range.mp hi; omega)])]
    simp [Finset.sum_range_succ]

/-- C1 at a concrete input: gain 1 and the bits `1` followed by 23 zeros. -/
theorem C1_bit_packing_sign_extension_witness :
    (runEvents 72000000 exWorld exInput (48 + 2 * exWorld.hx711_1.gain)).hx711_1.result
      = -2 ^ 23 :=
  (C1_bit_packing_sign_extension 72000000 exWorld exInput exBits
    (Or.inl rfl) rfl rfl rfl (fun i _ => by unfold exBits; split <;> omega) rfl
    (fun i _ => by simp [exInput, exBits])).2.2.2.1
      ⟨rfl, fun i h1 _ => by unfold exBits; rw [if_neg (by omega)]⟩

/-- C2. Frame length: for gain 1, 2 or 3, from a state with `sample_idx = 0` and
the data line low on the first call, whatever is read afterwards, none of the
first `47 + 2*gain` invocations completes the frame (each returns "reschedule",
does not signal the notifier, leaves `result` alone and leaves a non-zero
`sample_idx`), and invocation number `48 + 2*gain` completes it: it stores the
result, signals the notifier exactly once and resets `sample_idx` to 0. -/
theorem C2_frame_length (F : Nat) (w : World) (inp : Nat → Tick)
    (hg : w.hx711_1.gain = 1 ∨ w.hx711_1.gain = 2 ∨ w.hx711_1.gain = 3)
    (h0 : w.hx711_1.sample_idx = 0) (hp : (inp 0).pin = 0) :
    (∀ k, k + 1 < 48 + 2 * w.hx711_1.gain →
      wakeCount (nthCall F w inp k).effects = 0 ∧
      (nthCall F w inp k).ret = SchedFlag.SF_RESCHEDULE ∧
      (nthCall F w inp k).world.hx711_wake = w.hx711_wake ∧
      (nthCall F w inp k).world.hx711_1.result = w.hx711_1.result ∧
      (nthCall F w inp k).world.hx711_1.sample_idx = k + 1) ∧
    (wakeCount (nthCall F w inp (47 + 2 * w.hx711_1.gain)).effects = 1 ∧
      (nthCall F w inp (47 + 2 * w.hx711_1.gain)).world.hx711_wake = true ∧
      (nthCall F w inp (47 + 2 * w.hx711_1.gain)).world.hx711_1.sample_idx = 0 ∧
      (nthCall F w inp (47 + 2 * w.hx711_1.gain)).world.hx711_1.result =
        wrapI32 ((capture (runEvents F w inp (47 + 2 * w.hx711_1.gain)).hx711_1
                    (inp (47 + 2 * w.hx711_1.gain)).pin >>> (8 : Nat))
                  * w.hx711_1.invert)) := by
  have hN : 48 + 2 * w.hx711_1.gain < 2 ^ 32 := by omega
  constructor
  · intro k hk
    have hf := frame_fields F w inp hN (fun _ => hp) k (by omega)
    rw [nthCall_advance F w inp hN (fun _ => hp) k (by omega)]
    refine ⟨by simp [wakeCount], rfl, hf.2.2.2.2.2.2.2.1, hf.2.2.2.2.1, ?_⟩
    simp only
    omega
  · have hr := frame_result F w inp hN (fun _ => hp) (47 + 2 * w.hx711_1.gain) (by omega)
    rw [runEvents_succ] at hr
    exact ⟨hr.2.2.2.2.1, hr.2.2.2.1, hr.2.1, hr.1⟩

/-- C2 at a concrete input: gain 1, 50 invocations. -/
theorem C2_frame_length_witness :
    wakeCount (nthCall 72000000 exWorld exInput 48).effects = 0 ∧
    wakeCount (nthCall 72000000 exWorld exInput (47 + 2 * exWorld.hx711_1.gain)).effects = 1 :=
  ⟨((C2_frame_length 72000000 exWorld exInput (Or.inl rfl) rfl rfl).1 48
      (by decide)).1,
   (C2_frame_length 72000000 exWorld exInput (Or.inl rfl) rfl rfl).2.1⟩

/-- C3. End-to-end scenario: after `config_hx711 oid=3 gain=1 invert=1` and
`query_hx711 oid=3 enable=1` with a negative `endstop_oid`, running the callback
with the data line low on the first call and the bits `1, 0, ..., 0` on the 24
capture calls completes the frame on the 50th call and on none before, and the
50 calls write 25 clock pulses (24 data pulses and one extra); the next
`hx711_task` pass emits exactly one `hx711_in_state` report, with oid 3 and
value -8388608, and no probe call. -/
theorem C3_end_to_end (F : Nat) (boot : World) (fresh : hx711)
    (cargs qargs : Nat → Nat) (tq : Nat) (inp : Nat → Tick)
    (hc0 : cargs 0 = 3) (hc3 : cargs 3 = 1) (hc4 : cargs 4 = 1)
    (hq1 : qargs 1 = 1) (hq2 : toI32 (qargs 2) < 0)
    (hp : (inp 0).pin = 0) (hmsb : (inp 1).pin = 1)
    (hrest : ∀ i, 1 ≤ i → i < 24 → (inp (2 * i + 1)).pin = 0) :
    (∀ k, k < 49 →
      wakeCount (nthCall F
        (command_query_hx711 F qargs tq (command_config_hx711 cargs fresh boot).1).1
        inp k).effects = 0) ∧
    wakeCount (nthCall F
        (command_query_hx711 F qargs tq (command_config_hx711 cargs fresh boot).1).1
        inp 49).effects = 1 ∧
    clockWrites (runEffects F
        (command_query_hx711 F qargs tq (command_config_hx711 cargs fresh boot).1).1
        inp 50) = (List.replicate 25 [1, 0]).flatten ∧
    (hx711_task (runEvents F
        (command_query_hx711 F qargs tq (command_config_hx711 cargs fresh boot).1).1
        inp 50)).2 =
      [Effect.sendf_hx711_in_state 3 (((inp 49).now + SAMPLE_INTERVAL F) % 2 ^ 32)
        (-8388608)] := by
  obtain ⟨w, hw⟩ : ∃ w, w =
      (command_query_hx711 F qargs tq (command_config_hx711 cargs fresh boot).1).1 :=
    ⟨_, rfl⟩
  rw [← hw]
  have hi1 : toI32 1 = 1 := by decide
  have hfields : w.hx711_1.sample_idx = 0 ∧ w.hx711_1.sample = 0 ∧ w.hx711_1.gain = 1 ∧
      w.hx711_1.invert = 1 ∧ w.hx711_1.active = 1 ∧ w.hx711_1.oid = 3 ∧
      w.hx711_1.endstop_oid = toI32 (qargs 2) := by
    rw [hw]
    simp [command_query_hx711, command_config_hx711, hc0, hc3, hc4, hq1, hi1]
  obtain ⟨h0, hs0, hgain, hinv, hact, hoid, hend⟩ := hfields
  have hN : 48 + 2 * w.hx711_1.gain < 2 ^ 32 := by rw [hgain]; norm_num
  have hb : ∀ i, i < 24 → exBits i ≤ 1 := fun i _ => by unfold exBits; split <;> omega
  have hin : ∀ i, i < 24 → (inp (2 * i + 1)).pin = exBits i := by
    intro i hi
    by_cases hi0 : i = 0
    · subst hi0; simpa [exBits] using hmsb
    · rw [hrest i (by omega) hi]; simp [exBits, hi0]
  have hres := frame_result_bits F w inp exBits hN h0 hs0 hp hb hin
  rw [signed_msb_only exBits rfl (fun i h1 _ => by unfold exBits; rw [if_neg (by omega)]),
    hinv, hgain] at hres
  have hlast := nthCall_complete_go F w inp hN (fun _ => hp) (by rw [hact]; norm_num) 49
    (by rw [h0, hgain])
  refine ⟨?_, ?_, ?_, ?_⟩
  · intro k hk
    rw [nthCall_advance F w inp hN (fun _ => hp) k (by rw [h0, hgain]; omega)]
    simp [wakeCount]
  · rw [hlast]; simp [wakeCount]
  · rw [frame_clock_writes F w inp hN h0 hp 50 (by rw [hgain])]
    decide
  · have hfin := frame_final_fields F w inp hN (fun _ => hp) 49 (by rw [h0, hgain])
    have hfr := frame_result F w inp hN (fun _ => hp) 49 (by rw [h0, hgain])
    have hr50 : (runEvents F w inp (49 + 1)).hx711_1.result = -8388608 := by
      rw [show (48 + 2 * 1 : Nat) = 49 + 1 from rfl] at hres
      rw [hres]; decide
    rw [show (50 : Nat) = 49 + 1 from rfl,
      task_report _ hfr.2.2.2.1 (by rw [hfin.2.1, hend]; exact hq2),
      hfin.1, hoid, hfin.2.2.2.2.2 (by rw [hact]; norm_num), hr50]

/-- C3 at the concrete arguments of the scenario. -/
theorem C3_end_to_end_witness :
    (hx711_task (runEvents 72000000
        (command_query_hx711 72000000 exQueryArgs 5
          (command_config_hx711 exConfigArgs exFresh exBoot).1).1
        exInput 50)).2 =
      [Effect.sendf_hx711_in_state 3 (((exInput 49).now + SAMPLE_INTERVAL 72000000) % 2 ^ 32)
        (-8388608)] :=
  (C3_end_to_end 72000000 exBoot exFresh exConfigArgs exQueryArgs 5 exInput
    rfl rfl rfl rfl (by decide) rfl rfl
    (fun i h1 _ => by simp [exInput]; omega)).2.2.2

/-- C4. No spurious capture while not ready: from any state with
`sample_idx = 0` (whatever `active` is), as long as the data line reads high,
any number `n` of invocations leaves every field but `waketime` unchanged (in
particular `sample_idx`, `sample`, `result` and the notifier flag), and each of
these invocations only reads the data line and the time: it writes nothing to the
clock line, does not signal the notifier, returns "reschedule" (never "stop") and
sets `waketime` to the current time plus `200 * (CONFIG_CLOCK_FREQ/1000000)`
(in 32-bit arithmetic). -/
theorem C4_not_ready_retry (F : Nat) (w : World) (inp : Nat → Tick) (n : Nat)
    (h0 : w.hx711_1.sample_idx = 0)
    (hhigh : ∀ k, k < n → (inp k).pin ≠ 0) :
    (runEvents F w inp n).hx711_1.sample_idx = 0 ∧
    (runEvents F w inp n).hx711_1.sample = w.hx711_1.sample ∧
    (runEvents F w inp n).hx711_1.result = w.hx711_1.result ∧
    { runEvents F w inp n with hx711_1 :=
        { (runEvents F w inp n).hx711_1 with waketime := w.hx711_1.waketime } } = w ∧
    (∀ k, k < n →
      (nthCall F w inp k).effects =
        [Effect.gpio_in_read (inp k).pin, Effect.timer_read_time (inp k).now] ∧
      clockWrites (nthCall F w inp k).effects = [] ∧
      wakeCount (nthCall F w inp k).effects = 0 ∧
      (nthCall F w inp k).ret = SchedFlag.SF_RESCHEDULE ∧
      (nthCall F w inp k).world.hx711_1.waketime =
        ((inp k).now + 200 * (F / 1000000)) % 2 ^ 32) := by
  obtain ⟨t, ht⟩ := retry_run F w inp h0 n hhigh
  refine ⟨by rw [ht]; exact h0, by rw [ht], by rw [ht], by rw [ht], ?_⟩
  intro k hk
  obtain ⟨t2, ht2⟩ := retry_run F w inp h0 k (fun j hj => hhigh j (by omega))
  unfold nthCall
  rw [event_retry F _ _ _ (by rw [ht2]; exact h0) (hhigh k hk)]
  simp [clockWrites, wakeCount, NO_DATA_RETRY_DELAY]

/-- C4 at a concrete input: an enabled engine whose data line stays high for
1000 invocations. -/
theorem C4_not_ready_retry_witness :
    (runEvents 72000000 exWorld exHigh 1000).hx711_1.sample_idx = 0 ∧
    (runEvents 72000000 exWorld exHigh 1000).hx711_1.sample = exWorld.hx711_1.sample :=
  ⟨(C4_not_ready_retry 72000000 exWorld exHigh 1000 rfl (fun _ _ => by simp [exHigh])).1,
   (C4_not_ready_retry 72000000 exWorld exHigh 1000 rfl (fun _ _ => by simp [exHigh])).2.1⟩

/-- C5. Graceful disable: for gain 1, 2 or 3 and a mid-frame state `w`
(`0 < sample_idx < 48 + 2*gain`), let `wd` be the state after
`command_query_hx711` with `enable = 0` and `we` the same state with a non-zero
`active`.  The disable leaves the frame in progress as it is, and the remaining
`m = 48 + 2*gain - sample_idx` invocations from `wd` run as from `we`: same
`sample_idx`, `sample` and `result` after each, same clock writes.  All but the
last return "reschedule" without signalling the notifier; the last signals it
exactly once and returns `SF_DONE`.  The next task pass then sends exactly one
report, carrying that frame's result, and the scheduler model leaves the timer
unscheduled, so that a further dispatch does nothing. -/
theorem C5_graceful_disable (F : Nat) (w wd we : World) (qargs : Nat → Nat) (tq a m : Nat)
    (inp : Nat → Tick)
    (hg : w.hx711_1.gain = 1 ∨ w.hx711_1.gain = 2 ∨ w.hx711_1.gain = 3)
    (hmid : 0 < w.hx711_1.sample_idx ∧ w.hx711_1.sample_idx < 48 + 2 * w.hx711_1.gain)
    (hq : qargs 1 = 0) (ha : a ≠ 0)
    (hwd : wd = (command_query_hx711 F qargs tq w).1)
    (hwe : we = { wd with hx711_1 := { wd.hx711_1 with active := a } })
    (hm : w.hx711_1.sample_idx + m = 48 + 2 * w.hx711_1.gain) :
    (wd.hx711_1.active = 0 ∧ wd.hx711_1.sample_idx = w.hx711_1.sample_idx ∧
      wd.hx711_1.sample = w.hx711_1.sample ∧ wd.timer_scheduled = w.timer_scheduled) ∧
    (∀ k, k ≤ m →
      (runEvents F wd inp k).hx711_1.sample_idx = (runEvents F we inp k).hx711_1.sample_idx ∧
      (runEvents F wd inp k).hx711_1.sample = (runEvents F we inp k).hx711_1.sample ∧
      (runEvents F wd inp k).hx711_1.result = (runEvents F we inp k).hx711_1.result) ∧
    (∀ k, k < m →
      clockWrites (nthCall F wd inp k).effects = clockWrites (nthCall F we inp k).effects) ∧
    (∀ k, k + 1 < m →
      (nthCall F wd inp k).ret = SchedFlag.SF_RESCHEDULE ∧
      wakeCount (nthCall F wd inp k).effects = 0) ∧
    ((nthCall F wd inp (m - 1)).ret = SchedFlag.SF_DONE ∧
      wakeCount (nthCall F wd inp (m - 1)).effects = 1) ∧
    reports (hx711_task (runEvents F wd inp m)).2 =
      [(wd.hx711_1.oid, (runEvents F wd inp m).hx711_1.waketime,
        (runEvents F we inp m).hx711_1.result)] ∧
    (timer_dispatch F (runEvents F wd inp (m - 1)) (inp (m - 1))).1.timer_scheduled = false ∧
    (∀ t, timer_dispatch F
        (timer_dispatch F (runEvents F wd inp (m - 1)) (inp (m - 1))).1 t =
      ((timer_dispatch F (runEvents F wd inp (m - 1)) (inp (m - 1))).1, [])) := by
  have hwd' : wd = { w with hx711_1 :=
      { w.hx711_1 with endstop_oid := toI32 (qargs 2), active := 0 } } := by
    rw [hwd]; simp [command_query_hx711, hq]
  have hd_act : wd.hx711_1.active = 0 := by rw [hwd']
  have hd_idx : wd.hx711_1.sample_idx = w.hx711_1.sample_idx := by rw [hwd']
  have hd_gain : wd.hx711_1.gain = w.hx711_1.gain := by rw [hwd']
  have hN : 48 + 2 * wd.hx711_1.gain < 2 ^ 32 := by rw [hd_gain]; omega
  have hp : wd.hx711_1.sample_idx = 0 → (inp 0).pin = 0 := by
    intro h; rw [hd_idx] at h; omega
  have hcore : coreEq wd we := by rw [hwe]; exact ⟨rfl, rfl, rfl⟩
  have hinv : wd.hx711_1.invert = we.hx711_1.invert := by rw [hwe]
  have hres : wd.hx711_1.result = we.hx711_1.result := by rw [hwe]
  have hlock := run_lockstep F F wd we inp inp hcore (fun _ => rfl)
  have hm1 : m - 1 + 1 = m := by omega
  have hlast := nthCall_complete_stop F wd inp hN hp hd_act (m - 1)
    (by rw [hd_idx, hd_gain]; omega)
  have hfr := frame_result F wd inp hN hp (m - 1) (by rw [hd_idx, hd_gain]; omega)
  rw [hm1] at hfr
  have hdisp : (timer_dispatch F (runEvents F wd inp (m - 1)) (inp (m - 1))).1.timer_scheduled
      = false := by
    unfold timer_dispatch
    by_cases hs : (runEvents F wd inp (m - 1)).timer_scheduled = true
    · rw [if_pos hs]
      have : hx711_event F (runEvents F wd inp (m - 1)) (inp (m - 1)).pin (inp (m - 1)).now
          = nthCall F wd inp (m - 1) := rfl
      simp only [this, hlast]
      decide
    · rw [if_neg hs]
      simpa using hs
  refine ⟨⟨hd_act, hd_idx, by rw [hwd'], by rw [hwd']⟩, ?_, ?_, ?_, ?_, ?_, hdisp, ?_⟩
  · intro k _
    obtain ⟨⟨c1, c2, _⟩, _, _, c4⟩ := hlock k
    exact ⟨c1, c2, c4 hinv hres⟩
  · intro k _
    exact (hlock k).2.1
  · intro k hk
    rw [nthCall_advance F wd inp hN hp k (by rw [hd_idx, hd_gain]; omega)]
    exact ⟨rfl, by simp [wakeCount]⟩
  · rw [hlast]
    exact ⟨rfl, by simp [wakeCount]⟩
  · rw [(task_reports_set _ hfr.2.2.2.1).1, (run_config_fields F wd inp m).2.2.2.1,
      ((hlock m).2.2.2 hinv hres)]
  · intro t
    unfold timer_dispatch at hdisp ⊢
    rw [if_neg (by rw [hdisp]; simp)]

/-- C5 at a concrete input: the frame of `exMid` (gain 1, ten half-cycles done)
disabled mid-way; the 40 remaining invocations end with `SF_DONE`. -/
theorem C5_graceful_disable_witness :
    (nthCall 72000000 (command_query_hx711 72000000 exDisableArgs 5 exMid).1 exInput
        (40 - 1)).ret = SchedFlag.SF_DONE ∧
    wakeCount (nthCall 72000000 (command_query_hx711 72000000 exDisableArgs 5 exMid).1
        exInput (40 - 1)).effects = 1 :=
  (C5_graceful_disable 72000000 exMid
    (command_query_hx711 72000000 exDisableArgs 5 exMid).1
    { (command_query_hx711 72000000 exDisableArgs 5 exMid).1 with
      hx711_1 := { (command_query_hx711 72000000 exDisableArgs 5 exMid).1.hx711_1 with
        active := 1 } }
    exDisableArgs 5 1 40 exInput (Or.inl rfl) (by decide) rfl (by decide) rfl rfl
    rfl).2.2.2.2.1

/-- C6. Return policy: every invocation signals the notifier exactly when it
completes a frame.  It returns `SF_DONE` if and only if it completed a frame and
`active == 0`, and then `waketime` is unchanged.  If it completed a frame and
`active != 0` it returns "reschedule" with `waketime = now + CONFIG_CLOCK_FREQ/80`;
if it is not a not-ready retry and did not complete a frame it returns
"reschedule" with `waketime = now + 40 * (CONFIG_CLOCK_FREQ/1000000)` (sums in
32-bit arithmetic).  So a call that does not complete a frame never stops. -/
theorem C6_return_policy (F : Nat) (w : World) (pin now : Nat) :
    (completesFrame w pin ↔ wakeCount (hx711_event F w pin now).effects = 1) ∧
    ((hx711_event F w pin now).ret = SchedFlag.SF_DONE ↔
      (completesFrame w pin ∧ w.hx711_1.active = 0)) ∧
    ((hx711_event F w pin now).ret = SchedFlag.SF_DONE →
      (hx711_event F w pin now).world.hx711_1.waketime = w.hx711_1.waketime) ∧
    (completesFrame w pin → w.hx711_1.active ≠ 0 →
      (hx711_event F w pin now).ret = SchedFlag.SF_RESCHEDULE ∧
      (hx711_event F w pin now).world.hx711_1.waketime = (now + F / 80) % 2 ^ 32) ∧
    (¬ isRetry w pin → ¬ completesFrame w pin →
      (hx711_event F w pin now).ret = SchedFlag.SF_RESCHEDULE ∧
      (hx711_event F w pin now).world.hx711_1.waketime
        = (now + 40 * (F / 1000000)) % 2 ^ 32) ∧
    (¬ completesFrame w pin → (hx711_event F w pin now).ret ≠ SchedFlag.SF_DONE) := by
  refine ⟨(completes_iff_wake F w pin now).1, ?_⟩
  by_cases hr : w.hx711_1.sample_idx = 0 ∧ pin ≠ 0
  · have hret : isRetry w pin := hr
    have hnc : ¬ completesFrame w pin := fun h => h.1 hr
    rw [event_retry F w pin now hr.1 hr.2]
    simp [hret, hnc]
  · have hret : ¬ isRetry w pin := hr
    by_cases hlt : (w.hx711_1.sample_idx + 1) % 2 ^ 32
        < (48 + (2 * w.hx711_1.gain) % 2 ^ 32) % 2 ^ 32
    · have hnc : ¬ completesFrame w pin := fun h => absurd h.2 (by omega)
      rw [event_advance F w pin now hr hlt]
      simp [hret, hnc, COMM_DELAY]
    · have hc : completesFrame w pin := ⟨hr, by omega⟩
      by_cases ha : w.hx711_1.active = 0
      · rw [event_complete_stop F w pin now hr hc.2 ha]
        simp [hret, hc, ha]
      · rw [event_complete_go F w pin now hr hc.2 ha]
        simp [hret, hc, ha, SAMPLE_INTERVAL]

/-- C6 at a concrete input: the first half-cycle of `exWorld` does not complete a
frame and is rescheduled after `COMM_DELAY`. -/
theorem C6_return_policy_witness :
    (hx711_event 72000000 exWorld 0 5).ret = SchedFlag.SF_RESCHEDULE ∧
    (hx711_event 72000000 exWorld 0 5).world.hx711_1.waketime
      = (5 + 40 * (72000000 / 1000000)) % 2 ^ 32 :=
  (C6_return_policy 72000000 exWorld 0 5).2.2.2.2.1
    (by unfold isRetry; decide) (by unfold completesFrame isRetry; decide)

/-- C7. Clock pulse train: for gain 1, 2 or 3 and a state with
`sample_idx < 48 + 2*gain`, an invocation that is not a not-ready retry writes the
clock line exactly once, high if `sample_idx` was even and low if it was odd.  Over
one frame started at `sample_idx = 0` with the data line low, the clock writes are
`high, low` repeated `24 + gain` times, and the completing invocation writes
low. -/
theorem C7_clock_pulse_train (F : Nat) (w : World) (inp : Nat → Tick)
    (hg : w.hx711_1.gain = 1 ∨ w.hx711_1.gain = 2 ∨ w.hx711_1.gain = 3) :
    (∀ pin now, w.hx711_1.sample_idx < 48 + 2 * w.hx711_1.gain → ¬ isRetry w pin →
      clockWrites (hx711_event F w pin now).effects
        = [if w.hx711_1.sample_idx % 2 = 0 then 1 else 0]) ∧
    (w.hx711_1.sample_idx = 0 → (inp 0).pin = 0 →
      clockWrites (runEffects F w inp (48 + 2 * w.hx711_1.gain))
        = (List.replicate (24 + w.hx711_1.gain) [1, 0]).flatten ∧
      clockWrites (nthCall F w inp (47 + 2 * w.hx711_1.gain)).effects = [0]) := by
  have hN : 48 + 2 * w.hx711_1.gain < 2 ^ 32 := by omega
  constructor
  · intro pin now hidx hr
    unfold isRetry at hr
    by_cases hlt : w.hx711_1.sample_idx + 1 < 48 + 2 * w.hx711_1.gain
    · rw [event_advance F w pin now hr (by omega)]
      by_cases hpar : w.hx711_1.sample_idx % 2 = 0 <;> simp [clockWrites, hpar]
    · have hodd : ¬ (w.hx711_1.sample_idx % 2 = 0) := by omega
      rw [if_neg hodd]
      by_cases ha : w.hx711_1.active = 0
      · rw [event_complete_stop F w pin now hr (by omega) ha]; rfl
      · rw [event_complete_go F w pin now hr (by omega) ha]; rfl
  · intro h0 hp
    refine ⟨?_, (frame_result F w inp hN (fun _ => hp) _ (by omega)).2.2.2.2.2⟩
    rw [frame_clock_writes F w inp hN h0 hp _ (le_refl _)]
    rcases hg with h | h | h <;> rw [h] <;> decide

/-- C7 at a concrete input: the 50 invocations of a gain-1 frame write 25 pulses. -/
theorem C7_clock_pulse_train_witness :
    clockWrites (runEffects 72000000 exWorld exInput (48 + 2 * exWorld.hx711_1.gain))
      = (List.replicate (24 + exWorld.hx711_1.gain) [1, 0]).flatten :=
  ((C7_clock_pulse_train 72000000 exWorld exInput (Or.inl rfl)).2 rfl rfl).1

/-- C8. Re-enable resets state: from any prior state, `command_query_hx711` with
`enable != 0` leaves `sample_idx = 0` and `sample = 0`, calls `sched_del_timer`,
writes the clock line low, reads the time and calls `sched_add_timer` exactly
once, with `waketime = now + 200 * (CONFIG_CLOCK_FREQ/1000000)` (32-bit sum) and
the timer scheduled.  Consequently what follows does not depend on the prior
state: after an enable, two devices with the same gain and `invert` that read the
same data-line levels have the same counter and accumulator after every
invocation and, from the first completed frame on, the same result; and for gain
1, 2 or 3 the first frame's result is the two's-complement value of the 24 bits
captured after the enable, times `invert`. -/
theorem C8_reenable_resets (F : Nat) (w : World) (qargs : Nat → Nat) (tq : Nat)
    (hq : qargs 1 ≠ 0) :
    ((command_query_hx711 F qargs tq w).1.hx711_1.sample_idx = 0 ∧
      (command_query_hx711 F qargs tq w).1.hx711_1.sample = 0 ∧
      (command_query_hx711 F qargs tq w).1.hx711_1.waketime
        = (tq + 200 * (F / 1000000)) % 2 ^ 32 ∧
      (command_query_hx711 F qargs tq w).1.timer_scheduled = true ∧
      (command_query_hx711 F qargs tq w).2 =
        [Effect.sched_del_timer, Effect.gpio_out_write 0, Effect.timer_read_time tq,
         Effect.sched_add_timer]) ∧
    (∀ (F2 : Nat) (w2 : World) (qargs2 : Nat → Nat) (tq2 : Nat) (i1 i2 : Nat → Tick),
      qargs2 1 ≠ 0 → w2.hx711_1.gain = w.hx711_1.gain →
      w2.hx711_1.invert = w.hx711_1.invert → (∀ k, (i1 k).pin = (i2 k).pin) →
      ∀ n,
        (runEvents F (command_query_hx711 F qargs tq w).1 i1 n).hx711_1.sample_idx
          = (runEvents F2 (command_query_hx711 F2 qargs2 tq2 w2).1 i2 n).hx711_1.sample_idx ∧
        (runEvents F (command_query_hx711 F qargs tq w).1 i1 n).hx711_1.sample
          = (runEvents F2 (command_query_hx711 F2 qargs2 tq2 w2).1 i2 n).hx711_1.sample ∧
        ((∃ k, k < n ∧
            completesFrame (runEvents F (command_query_hx711 F qargs tq w).1 i1 k) (i1 k).pin) →
          (runEvents F (command_query_hx711 F qargs tq w).1 i1 n).hx711_1.result
            = (runEvents F2 (command_query_hx711 F2 qargs2 tq2 w2).1 i2 n).hx711_1.result)) ∧
    (∀ (inp : Nat → Tick) (b : Nat → Nat),
      (w.hx711_1.gain = 1 ∨ w.hx711_1.gain = 2 ∨ w.hx711_1.gain = 3) →
      (∀ i, i < 24 → b i ≤ 1) → (inp 0).pin = 0 →
      (∀ i, i < 24 → (inp (2 * i + 1)).pin = b i) →
      (runEvents F (command_query_hx711 F qargs tq w).1 inp
          (48 + 2 * w.hx711_1.gain)).hx711_1.result
        = wrapI32 (((∑ i ∈ Finset.range 24, (b i : Int) * 2 ^ (23 - i))
            - (b 0 : Int) * 2 ^ 24) * w.hx711_1.invert)) := by
  have hform : ∀ (G : Nat) (v : World) (a : Nat → Nat) (t : Nat), a 1 ≠ 0 →
      command_query_hx711 G a t v =
        ({ v with
            hx711_1 := { v.hx711_1 with
              endstop_oid := toI32 (a 2), active := a 1, sample_idx := 0, sample := 0,
              waketime := (t + NO_DATA_RETRY_DELAY G) % 2 ^ 32 },
            timer_scheduled := true },
         [Effect.sched_del_timer, Effect.gpio_out_write 0, Effect.timer_read_time t,
          Effect.sched_add_timer]) := by
    intro G v a t ha
    unfold command_query_hx711
    simp only
    rw [if_pos ha]
  refine ⟨?_, ?_, ?_⟩
  · rw [hform F w qargs tq hq]
    exact ⟨rfl, rfl, rfl, rfl, rfl⟩
  · intro F2 w2 qargs2 tq2 i1 i2 hq2 hgain hinv hpin n
    have hcore : coreEq (command_query_hx711 F qargs tq w).1
        (command_query_hx711 F2 qargs2 tq2 w2).1 := by
      rw [hform F w qargs tq hq, hform F2 w2 qargs2 tq2 hq2]
      exact ⟨rfl, rfl, hgain.symm⟩
    have hi : (command_query_hx711 F qargs tq w).1.hx711_1.invert
        = (command_query_hx711 F2 qargs2 tq2 w2).1.hx711_1.invert := by
      rw [hform F w qargs tq hq, hform F2 w2 qargs2 tq2 hq2]
      exact hinv.symm
    have hl := (run_lockstep F F2 _ _ i1 i2 hcore hpin n).1
    exact ⟨hl.1, hl.2.1, run_result_after_completion F F2 _ _ i1 i2 hcore hi hpin n⟩
  · intro inp b hg hb hp hin
    have hgain : (command_query_hx711 F qargs tq w).1.hx711_1.gain = w.hx711_1.gain := by
      rw [hform F w qargs tq hq]
    have hinv : (command_query_hx711 F qargs tq w).1.hx711_1.invert = w.hx711_1.invert := by
      rw [hform F w qargs tq hq]
    have h0 : (command_query_hx711 F qargs tq w).1.hx711_1.sample_idx = 0 := by
      rw [hform F w qargs tq hq]
    have hs0 : (command_query_hx711 F qargs tq w).1.hx711_1.sample = 0 := by
      rw [hform F w qargs tq hq]
    have hres := frame_result_bits F (command_query_hx711 F qargs tq w).1 inp b
      (by rw [hgain]; omega) h0 hs0 hp hb hin
    rw [hgain, hinv] at hres
    exact hres

/-- C8 at a concrete input: enabling the stale state `exStale` (counter 17,
non-zero accumulator) resets counter and accumulator. -/
theorem C8_reenable_resets_witness :
    (command_query_hx711 72000000 exQueryArgs 5 exStale).1.hx711_1.sample_idx = 0 ∧
    (command_query_hx711 72000000 exQueryArgs 5 exStale).1.hx711_1.sample = 0 :=
  ⟨(C8_reenable_resets 72000000 exStale exQueryArgs 5 (by decide)).1.1,
   (C8_reenable_resets 72000000 exStale exQueryArgs 5 (by decide)).1.2.1⟩

/-- C9. Invert: for gain 1, 2 or 3 and any data-line reads over one frame started
from `sample_idx = 0`, `sample = 0` (data line low on the first call), the result
stored at completion with `invert = -1` is the arithmetic negation of the result
stored for the same reads with `invert = 1`; the latter lies in
`[-2^23, 2^23)`, so the negation does not wrap around. -/
theorem C9_invert (F : Nat) (w1 w2 : World) (inp : Nat → Tick)
    (hg : w1.hx711_1.gain = 1 ∨ w1.hx711_1.gain = 2 ∨ w1.hx711_1.gain = 3)
    (h0 : w1.hx711_1.sample_idx = 0) (hs0 : w1.hx711_1.sample = 0)
    (hinv1 : w1.hx711_1.invert = 1)
    (hw2 : w2 = { w1 with hx711_1 := { w1.hx711_1 with invert := -1 } })
    (hp : (inp 0).pin = 0) :
    (runEvents F w2 inp (48 + 2 * w1.hx711_1.gain)).hx711_1.result
      = -(runEvents F w1 inp (48 + 2 * w1.hx711_1.gain)).hx711_1.result ∧
    -2 ^ 23 ≤ (runEvents F w1 inp (48 + 2 * w1.hx711_1.gain)).hx711_1.result ∧
    (runEvents F w1 inp (48 + 2 * w1.hx711_1.gain)).hx711_1.result < 2 ^ 23 := by
  have hN : 48 + 2 * w1.hx711_1.gain < 2 ^ 32 := by omega
  have hgain2 : w2.hx711_1.gain = w1.hx711_1.gain := by rw [hw2]
  have hidx2 : w2.hx711_1.sample_idx = 0 := by rw [hw2]; exact h0
  have hinv2 : w2.hx711_1.invert = -1 := by rw [hw2]
  have hcore : coreEq w1 w2 := by rw [hw2]; exact ⟨rfl, rfl, rfl⟩
  have e : 48 + 2 * w1.hx711_1.gain = (47 + 2 * w1.hx711_1.gain) + 1 := by omega
  have hl := (run_lockstep F F w1 w2 inp inp hcore (fun _ => rfl)
    (47 + 2 * w1.hx711_1.gain)).1
  have hcap := capture_congr _ _ (inp (47 + 2 * w1.hx711_1.gain)).pin hl.1 hl.2.1
  have hr1 := (frame_result F w1 inp hN (fun _ => hp) (47 + 2 * w1.hx711_1.gain)
    (by omega)).1
  have hr2 := (frame_result F w2 inp (by rw [hgain2]; exact hN) (fun _ => hp)
    (47 + 2 * w1.hx711_1.gain) (by rw [hidx2, hgain2]; omega)).1
  have hrange := shr8_range _ (capture_range
    (runEvents F w1 inp (47 + 2 * w1.hx711_1.gain)).hx711_1
    (inp (47 + 2 * w1.hx711_1.gain)).pin
    (run_sample_range F w1 inp (by rw [hs0]; norm_num) _))
  rw [hinv1, mul_one, wrapI32_of_range _ (by omega) (by omega)] at hr1
  rw [hinv2, ← hcap, mul_neg, mul_one, wrapI32_of_range _ (by omega) (by omega)] at hr2
  rw [e, hr1, hr2]
  exact ⟨rfl, hrange.1, hrange.2⟩

/-- C9 at a concrete input: the frame of `exInput` (bits `1` followed by 23
zeros) with and without inversion. -/
theorem C9_invert_witness :
    (runEvents 72000000 exWorldInv exInput (48 + 2 * exWorld.hx711_1.gain)).hx711_1.result
      = -(runEvents 72000000 exWorld exInput (48 + 2 * exWorld.hx711_1.gain)).hx711_1.result :=
  (C9_invert 72000000 exWorld exWorldInv exInput (Or.inl rfl) rfl rfl rfl rfl rfl).1

/-- C10. Notifier coalescing, with the wake flag a single boolean that
`sched_wake_task` sets and `sched_check_wake` tests and clears: if two calls `j1 <
j2` of a run of `hx711_event` complete a frame and no later call of the run does
(and no task pass happens during the run), the next `hx711_task` pass sends
exactly one report, carrying the result stored by call `j2`, and the pass after
that sends nothing.  In general a task pass sends at most one report, and none
(changing nothing) when the flag is clear. -/
theorem C10_notifier_coalescing (F : Nat) (w : World) (inp : Nat → Tick) (j1 j2 n : Nat)
    (h12 : j1 < j2) (h2n : j2 < n)
    (hc1 : completesFrame (runEvents F w inp j1) (inp j1).pin)
    (hc2 : completesFrame (runEvents F w inp j2) (inp j2).pin)
    (hlast : ∀ k, j2 < k → k < n → ¬ completesFrame (runEvents F w inp k) (inp k).pin) :
    (wakeCount (nthCall F w inp j1).effects = 1 ∧
      wakeCount (nthCall F w inp j2).effects = 1) ∧
    reports (hx711_task (runEvents F w inp n)).2 =
      [((runEvents F w inp n).hx711_1.oid, (runEvents F w inp n).hx711_1.waketime,
        (runEvents F w inp (j2 + 1)).hx711_1.result)] ∧
    (hx711_task (hx711_task (runEvents F w inp n)).1).2 = [] ∧
    (∀ v : World, (reports (hx711_task v).2).length ≤ 1 ∧
      (v.hx711_wake = false → hx711_task v = (v, []))) := by
  have _ := h12
  have hrun := run_after_completion F w inp j2 hc2 n h2n hlast
  have htask := task_reports_set (runEvents F w inp n) hrun.1
  refine ⟨⟨((completes_iff_wake F _ _ _).1).mp hc1, ((completes_iff_wake F _ _ _).1).mp hc2⟩,
    ?_, ?_, ?_⟩
  · rw [htask.1, hrun.2]
  · rw [task_clear _ htask.2]
  · intro v
    by_cases hv : v.hx711_wake = true
    · exact ⟨by rw [(task_reports_set v hv).1]; simp, fun h => by rw [hv] at h; cases h⟩
    · have hv' : v.hx711_wake = false := by simpa using hv
      exact ⟨by rw [task_clear v hv']; simp [reports], fun _ => task_clear v hv'⟩

set_option maxRecDepth 100000 in
/-- C10 at a concrete input: from `exLast` (one half-cycle before the end of a
frame) with the data line low, calls 0 and 50 complete a frame. -/
theorem C10_notifier_coalescing_witness :
    reports (hx711_task (runEvents 72000000 exLast exLow 51)).2 =
      [((runEvents 72000000 exLast exLow 51).hx711_1.oid,
        (runEvents 72000000 exLast exLow 51).hx711_1.waketime,
        (runEvents 72000000 exLast exLow (50 + 1)).hx711_1.result)] :=
  (C10_notifier_coalescing 72000000 exLast exLow 0 50 51 (by decide) (by decide)
    ⟨by unfold isRetry; decide, by decide⟩
    ⟨by unfold isRetry; decide, by decide⟩
    (fun k h1 h2 => by omega)).2.1

/-- C11. Task handler output: for every state with the wake flag set,
`hx711_task` calls the probe collaborator with `(endstop_oid, result,
timer.waketime)` if and only if `endstop_oid >= 0`, that call coming first, and
then emits exactly one `hx711_in_state` report carrying the device's `oid`,
`timer.waketime` and `result` as they stand; the device record is unchanged (only
the flag is cleared). -/
theorem C11_task_handler_output (w : World) (hwake : w.hx711_wake = true) :
    (w.hx711_1.endstop_oid ≥ 0 →
      (hx711_task w).2 =
        [Effect.check_load_cell_probe w.hx711_1.endstop_oid w.hx711_1.result
           w.hx711_1.waketime,
         Effect.sendf_hx711_in_state w.hx711_1.oid w.hx711_1.waketime w.hx711_1.result]) ∧
    (w.hx711_1.endstop_oid < 0 →
      (hx711_task w).2 =
        [Effect.sendf_hx711_in_state w.hx711_1.oid w.hx711_1.waketime w.hx711_1.result]) ∧
    (probeCalls (hx711_task w).2 ≠ [] ↔ w.hx711_1.endstop_oid ≥ 0) ∧
    reports (hx711_task w).2 = [(w.hx711_1.oid, w.hx711_1.waketime, w.hx711_1.result)] ∧
    (hx711_task w).1.hx711_1 = w.hx711_1 ∧
    (hx711_task w).1.timer_scheduled = w.timer_scheduled ∧
    (hx711_task w).1.hx711_wake = false := by
  by_cases he : w.hx711_1.endstop_oid ≥ 0
  · have hne : ¬ w.hx711_1.endstop_oid < 0 := by omega
    simp [hx711_task, sched_check_wake, hwake, he, hne, reports, probeCalls]
  · have hlt : w.hx711_1.endstop_oid < 0 := by omega
    simp [hx711_task, sched_check_wake, hwake, he, hlt, reports, probeCalls]

/-- C11 at a concrete input: a pending notification with probe 2 linked. -/
theorem C11_task_handler_output_witness :
    (hx711_task exProbe).2 =
      [Effect.check_load_cell_probe exProbe.hx711_1.endstop_oid exProbe.hx711_1.result
         exProbe.hx711_1.waketime,
       Effect.sendf_hx711_in_state exProbe.hx711_1.oid exProbe.hx711_1.waketime
         exProbe.hx711_1.result] :=
  (C11_task_handler_output exProbe rfl).1 (by decide)

/-- C12. Result is written only at frame completion.  For every state `v` and
input, a call that does not complete a frame (a not-ready retry, or a half-cycle
whose advanced counter stays below `48 + 2*gain`) leaves `result` and the notifier
flag unchanged and does not signal the notifier.  A call that completes a frame
stores `(sample >> 8) * invert` (32-bit) into `result`, signals the notifier
exactly once, resets `sample_idx` and `sample` to 0; in program order the
assignment of the final value to `result` comes immediately before the call to
`sched_wake_task`, and `result` is not assigned afterwards.  In every state `w`
reached after configuration (any arguments, any sequence of queries and
invocations, any reads), a call that leaves `sample_idx = 0` either completed a
frame or is a not-ready retry, which found it 0 and left it alone; so a non-zero
`sample_idx` becomes 0 only on a completing call.  (For an arbitrary state this
last part holds whenever `sample_idx < 2^32 - 1`.) -/
theorem C12_result_only_at_completion (F : Nat) (args : Nat → Nat) (fresh : hx711)
    (boot : World) (acts : List Action) (w : World)
    (hw : w = runActions F (command_config_hx711 args fresh boot).1 acts) :
    (∀ (v : World) (pin now : Nat),
      (¬ completesFrame v pin →
        (hx711_event F v pin now).world.hx711_1.result = v.hx711_1.result ∧
        wakeCount (hx711_event F v pin now).effects = 0 ∧
        (hx711_event F v pin now).world.hx711_wake = v.hx711_wake) ∧
      (¬ completesFrame v pin ↔
        (isRetry v pin ∨
          (v.hx711_1.sample_idx + 1) % 2 ^ 32
            < (48 + (2 * v.hx711_1.gain) % 2 ^ 32) % 2 ^ 32)) ∧
      (completesFrame v pin →
        (hx711_event F v pin now).world.hx711_1.result
          = wrapI32 ((capture v.hx711_1 pin >>> (8 : Nat)) * v.hx711_1.invert) ∧
        wakeCount (hx711_event F v pin now).effects = 1 ∧
        (hx711_event F v pin now).world.hx711_wake = true ∧
        (hx711_event F v pin now).world.hx711_1.sample_idx = 0 ∧
        (hx711_event F v pin now).world.hx711_1.sample = 0 ∧
        ∃ (pre post : List Stmt) (hA : hx711),
          hx711_event_stmts F v pin now
            = pre ++ Stmt.assign hA :: Stmt.call Effect.sched_wake_task :: post ∧
          hA.result = (hx711_event F v pin now).world.hx711_1.result ∧
          Effect.sched_wake_task ∉ stmtCalls pre ∧
          Effect.sched_wake_task ∉ stmtCalls post ∧
          (∀ g, Stmt.assign g ∈ post → g.result = hA.result)) ∧
      (v.hx711_1.sample_idx < 4294967295 →
        (hx711_event F v pin now).world.hx711_1.sample_idx = 0 →
        (completesFrame v pin ∨ (isRetry v pin ∧ v.hx711_1.sample_idx = 0)))) ∧
    (∀ (pin now : Nat),
      (hx711_event F w pin now).world.hx711_1.sample_idx = 0 →
      (completesFrame w pin ∨ (isRetry w pin ∧ w.hx711_1.sample_idx = 0))) ∧
    (∀ (pin now : Nat), w.hx711_1.sample_idx ≠ 0 →
      (hx711_event F w pin now).world.hx711_1.sample_idx = 0 →
      completesFrame w pin) := by
  have hall : ∀ (v : World) (pin now : Nat),
      (¬ completesFrame v pin →
        (hx711_event F v pin now).world.hx711_1.result = v.hx711_1.result ∧
        wakeCount (hx711_event F v pin now).effects = 0 ∧
        (hx711_event F v pin now).world.hx711_wake = v.hx711_wake) ∧
      (¬ completesFrame v pin ↔
        (isRetry v pin ∨
          (v.hx711_1.sample_idx + 1) % 2 ^ 32
            < (48 + (2 * v.hx711_1.gain) % 2 ^ 32) % 2 ^ 32)) ∧
      (completesFrame v pin →
        (hx711_event F v pin now).world.hx711_1.result
          = wrapI32 ((capture v.hx711_1 pin >>> (8 : Nat)) * v.hx711_1.invert) ∧
        wakeCount (hx711_event F v pin now).effects = 1 ∧
        (hx711_event F v pin now).world.hx711_wake = true ∧
        (hx711_event F v pin now).world.hx711_1.sample_idx = 0 ∧
        (hx711_event F v pin now).world.hx711_1.sample = 0 ∧
        ∃ (pre post : List Stmt) (hA : hx711),
          hx711_event_stmts F v pin now
            = pre ++ Stmt.assign hA :: Stmt.call Effect.sched_wake_task :: post ∧
          hA.result = (hx711_event F v pin now).world.hx711_1.result ∧
          Effect.sched_wake_task ∉ stmtCalls pre ∧
          Effect.sched_wake_task ∉ stmtCalls post ∧
          (∀ g, Stmt.assign g ∈ post → g.result = hA.result)) ∧
      (v.hx711_1.sample_idx < 4294967295 →
        (hx711_event F v pin now).world.hx711_1.sample_idx = 0 →
        (completesFrame v pin ∨ (isRetry v pin ∧ v.hx711_1.sample_idx = 0))) := by
    intro v pin now
    have hflag := event_result_flag F v pin now
    have hwake := completes_iff_wake F v pin now
    refine ⟨fun hnc => ⟨(hflag.1 hnc).1, hwake.2.mp hnc, (hflag.1 hnc).2⟩, ?_, ?_, ?_⟩
    · unfold completesFrame
      constructor
      · intro h
        by_cases hr : isRetry v pin
        · exact Or.inl hr
        · right
          by_contra hlt
          exact h ⟨hr, by omega⟩
      · rintro (hr | hlt) ⟨hnr, hge⟩
        · exact hnr hr
        · omega
    · intro hc
      have hr : ¬ (v.hx711_1.sample_idx = 0 ∧ pin ≠ 0) := hc.1
      have hge := hc.2
      have hstm : ∃ (pre post : List Stmt) (hA : hx711),
          hx711_event_stmts F v pin now
            = pre ++ Stmt.assign hA :: Stmt.call Effect.sched_wake_task :: post ∧
          hA.result = wrapI32 ((capture v.hx711_1 pin >>> (8 : Nat)) * v.hx711_1.invert) ∧
          Effect.sched_wake_task ∉ stmtCalls pre ∧
          Effect.sched_wake_task ∉ stmtCalls post ∧
          (∀ g, Stmt.assign g ∈ post → g.result = hA.result) := by
        unfold hx711_event_stmts
        simp only [ge_iff_le]
        rw [if_neg hr, if_pos hge]
        by_cases hcp : v.hx711_1.sample_idx % 2 ≠ 0 ∧ v.hx711_1.sample_idx < 48 <;>
          by_cases ha : v.hx711_1.active = 0
        · rw [if_pos hcp, if_pos ha]
          refine ⟨[_, _, _, _], [_, _, _], _, rfl, rfl, ?_, ?_, ?_⟩
          · simp [stmtCalls]
          · simp [stmtCalls]
          · intro g hg
            simp at hg
            rcases hg with hg | hg <;> rw [hg]
        · rw [if_pos hcp, if_neg ha]
          refine ⟨[_, _, _, _], [_, _, _, _, _], _, rfl, rfl, ?_, ?_, ?_⟩
          · simp [stmtCalls]
          · simp [stmtCalls]
          · intro g hg
            simp at hg
            rcases hg with hg | hg | hg <;> rw [hg]
        · rw [if_neg hcp, if_pos ha]
          refine ⟨[_, _, _], [_, _, _], _, rfl, rfl, ?_, ?_, ?_⟩
          · simp [stmtCalls]
          · simp [stmtCalls]
          · intro g hg
            simp at hg
            rcases hg with hg | hg <;> rw [hg]
        · rw [if_neg hcp, if_neg ha]
          refine ⟨[_, _, _], [_, _, _, _, _], _, rfl, rfl, ?_, ?_, ?_⟩
          · simp [stmtCalls]
          · simp [stmtCalls]
          · intro g hg
            simp at hg
            rcases hg with hg | hg | hg <;> rw [hg]
      by_cases ha : v.hx711_1.active = 0
      · rw [event_complete_stop F v pin now hr hge ha]
        exact ⟨rfl, by simp [wakeCount], rfl, rfl, rfl, hstm⟩
      · rw [event_complete_go F v pin now hr hge ha]
        exact ⟨rfl, by simp [wakeCount], rfl, rfl, rfl, hstm⟩
    · intro hidx hzero
      by_cases hr : v.hx711_1.sample_idx = 0 ∧ pin ≠ 0
      · exact Or.inr ⟨hr, hr.1⟩
      · left
        refine ⟨hr, ?_⟩
        by_contra hlt
        rw [event_advance F v pin now hr (by omega)] at hzero
        simp only at hzero
        omega
  have hinv : ReachInv w := by rw [hw]; exact reach_ReachInv F args fresh boot acts
  have hidx : w.hx711_1.sample_idx < 4294967295 := by
    rcases hinv.1 with h | h <;> omega
  refine ⟨hall, fun pin now hz => (hall w pin now).2.2.2 hidx hz, ?_⟩
  intro pin now hne hz
  rcases (hall w pin now).2.2.2 hidx hz with h | h
  · exact h
  · exact absurd h.2 hne

/-- C12 at concrete inputs: the last half-cycle of a gain-1 frame stores the
result and signals once; in the state reached by `exActions` a call that leaves
the counter at 0 completed a frame or is a retry. -/
theorem C12_result_only_at_completion_witness :
    ((hx711_event 72000000 exLast 0 5).world.hx711_1.result
        = wrapI32 ((capture exLast.hx711_1 0 >>> (8 : Nat)) * exLast.hx711_1.invert) ∧
      wakeCount (hx711_event 72000000 exLast 0 5).effects = 1) ∧
    ((hx711_event 72000000
        (runActions 72000000 (command_config_hx711 exConfigArgs exFresh exBoot).1 exActions)
        0 5).world.hx711_1.sample_idx = 0 →
      (completesFrame
          (runActions 72000000 (command_config_hx711 exConfigArgs exFresh exBoot).1 exActions)
          0 ∨
        (isRetry
            (runActions 72000000 (command_config_hx711 exConfigArgs exFresh exBoot).1
              exActions) 0 ∧
          (runActions 72000000 (command_config_hx711 exConfigArgs exFresh exBoot).1
            exActions).hx711_1.sample_idx = 0))) :=
  ⟨⟨(((C12_result_only_at_completion 72000000 exConfigArgs exFresh exBoot exActions _
        rfl).1 exLast 0 5).2.2.1 (by decide)).1,
    (((C12_result_only_at_completion 72000000 exConfigArgs exFresh exBoot exActions _
        rfl).1 exLast 0 5).2.2.1 (by decide)).2.1⟩,
   (C12_result_only_at_completion 72000000 exConfigArgs exFresh exBoot exActions _
      rfl).2.1 0 5⟩

/-- C13. Pulse-index range invariant: for gain 1, 2 or 3, in every state `w`
reached from `command_config_hx711` by any sequence of `command_query_hx711` and
`hx711_event` calls, `sample_idx < 48 + 2*gain`.  From such a state every call
that is not a not-ready retry maps `sample_idx` to `(sample_idx + 1) mod (48 +
2*gain)` and writes the clock once; a not-ready retry happens only at `sample_idx
= 0` and leaves it 0; and at `sample_idx != 0` no read value causes a retry. -/
theorem C13_pulse_index_range (F : Nat) (args : Nat → Nat) (fresh : hx711) (boot : World)
    (acts : List Action) (w : World)
    (hg : args 3 = 1 ∨ args 3 = 2 ∨ args 3 = 3)
    (hw : w = runActions F (command_config_hx711 args fresh boot).1 acts) :
    w.hx711_1.gain = args 3 ∧
    w.hx711_1.sample_idx < 48 + 2 * w.hx711_1.gain ∧
    (∀ pin now, ¬ isRetry w pin →
      (hx711_event F w pin now).world.hx711_1.sample_idx
        = (w.hx711_1.sample_idx + 1) % (48 + 2 * w.hx711_1.gain) ∧
      (clockWrites (hx711_event F w pin now).effects).length = 1) ∧
    (∀ pin now, isRetry w pin →
      w.hx711_1.sample_idx = 0 ∧
      (hx711_event F w pin now).world.hx711_1.sample_idx = 0 ∧
      clockWrites (hx711_event F w pin now).effects = []) ∧
    (∀ pin, w.hx711_1.sample_idx ≠ 0 → ¬ isRetry w pin) := by
  have hgain : w.hx711_1.gain = args 3 := by
    rw [hw, (runActions_config F acts _).1]; rfl
  have hinv : ReachInv w := by rw [hw]; exact reach_ReachInv F args fresh boot acts
  have hthr : (48 + (2 * w.hx711_1.gain) % 2 ^ 32) % 2 ^ 32 = 48 + 2 * w.hx711_1.gain := by
    rw [hgain]; omega
  have hidx : w.hx711_1.sample_idx < 48 + 2 * w.hx711_1.gain := by
    rcases hinv.1 with h | h
    · omega
    · rw [hthr] at h; exact h
  refine ⟨hgain, hidx, ?_, ?_, ?_⟩
  · intro pin now hr
    have hr' : ¬ (w.hx711_1.sample_idx = 0 ∧ pin ≠ 0) := hr
    by_cases hlt : w.hx711_1.sample_idx + 1 < 48 + 2 * w.hx711_1.gain
    · rw [event_advance F w pin now hr' (by rw [hthr]; omega)]
      refine ⟨?_, by simp [clockWrites]⟩
      simp only
      rw [Nat.mod_eq_of_lt (by omega), Nat.mod_eq_of_lt hlt]
    · have hlast : w.hx711_1.sample_idx + 1 = 48 + 2 * w.hx711_1.gain := by omega
      by_cases ha : w.hx711_1.active = 0
      · rw [event_complete_stop F w pin now hr' (by rw [hthr]; omega) ha]
        refine ⟨?_, by simp [clockWrites]⟩
        simp only
        rw [hlast, Nat.mod_self]
      · rw [event_complete_go F w pin now hr' (by rw [hthr]; omega) ha]
        refine ⟨?_, by simp [clockWrites]⟩
        simp only
        rw [hlast, Nat.mod_self]
  · intro pin now hr
    rw [event_retry F w pin now hr.1 hr.2]
    exact ⟨hr.1, hr.1, rfl⟩
  · intro pin hne hr
    exact hne hr.1

/-- C13 at a concrete input: the state reached by `exActions` after the
configuration `exConfigArgs` (gain 1). -/
theorem C13_pulse_index_range_witness :
    (runActions 72000000 (command_config_hx711 exConfigArgs exFresh exBoot).1
        exActions).hx711_1.sample_idx
      < 48 + 2 * (runActions 72000000 (command_config_hx711 exConfigArgs exFresh exBoot).1
        exActions).hx711_1.gain :=
  (C13_pulse_index_range 72000000 exConfigArgs exFresh exBoot exActions _
    (Or.inl rfl) rfl).2.1

/-- C14. Disable has no immediate effect: from any state, `command_query_hx711`
with `enable == 0` sets `active` to 0 and `endstop_oid` to the request's value and
changes nothing else (`sample_idx`, `sample`, `result`, `gain`, `invert`, `oid`, the
timer's `waketime`, the notifier flag and whether the timer is scheduled are as
before); it calls no collaborator, so it writes nothing to the clock line and
touches no timer. -/
theorem C14_disable_no_immediate_effect (F : Nat) (w : World) (qargs : Nat → Nat)
    (tq : Nat) (hq : qargs 1 = 0) :
    command_query_hx711 F qargs tq w =
      ({ w with hx711_1 :=
          { w.hx711_1 with endstop_oid := toI32 (qargs 2), active := 0 } }, []) ∧
    (command_query_hx711 F qargs tq w).1.hx711_1.active = 0 ∧
    (command_query_hx711 F qargs tq w).1.hx711_1.endstop_oid = toI32 (qargs 2) ∧
    (command_query_hx711 F qargs tq w).1.hx711_1.sample_idx = w.hx711_1.sample_idx ∧
    (command_query_hx711 F qargs tq w).1.hx711_1.sample = w.hx711_1.sample ∧
    (command_query_hx711 F qargs tq w).1.hx711_1.result = w.hx711_1.result ∧
    (command_query_hx711 F qargs tq w).1.hx711_1.gain = w.hx711_1.gain ∧
    (command_query_hx711 F qargs tq w).1.hx711_1.invert = w.hx711_1.invert ∧
    (command_query_hx711 F qargs tq w).1.hx711_1.oid = w.hx711_1.oid ∧
    (command_query_hx711 F qargs tq w).1.hx711_1.waketime = w.hx711_1.waketime ∧
    (command_query_hx711 F qargs tq w).1.hx711_wake = w.hx711_wake ∧
    (command_query_hx711 F qargs tq w).1.timer_scheduled = w.timer_scheduled ∧
    (command_query_hx711 F qargs tq w).2 = [] ∧
    clockWrites (command_query_hx711 F qargs tq w).2 = [] := by
  have hform : command_query_hx711 F qargs tq w =
      ({ w with hx711_1 :=
          { w.hx711_1 with endstop_oid := toI32 (qargs 2), active := 0 } }, []) := by
    unfold command_query_hx711
    simp only [hq]
    rw [if_neg (by simp)]
  rw [hform]
  exact ⟨rfl, rfl, rfl, rfl, rfl, rfl, rfl, rfl, rfl, rfl, rfl, rfl, rfl, rfl⟩

/-- C14 at a concrete input: disabling the mid-frame state `exMid`. -/
theorem C14_disable_no_immediate_effect_witness :
    (command_query_hx711 72000000 exDisableArgs 5 exMid).1.hx711_1.sample_idx
      = exMid.hx711_1.sample_idx ∧
    (command_query_hx711 72000000 exDisableArgs 5 exMid).2 = [] :=
  ⟨(C14_disable_no_immediate_effect 72000000 exMid exDisableArgs 5 rfl).2.2.2.1,
   (C14_disable_no_immediate_effect 72000000 exMid exDisableArgs 5 rfl).2.2.2.2.2.2.2.2.2.2.2.2.1⟩

/-- C15. Timing-overrun independence: from any state and for any data-line read,
two `hx711_event` calls that differ only in the value of `timer_read_time` leave
the same `sample_idx`, `sample` and `result`, make the same clock write and the
same notifier signal and return the same code; the resulting states differ at
most in `waketime`.  Hence two runs on the same sequence of data-line reads, with
arbitrary times, agree after every invocation on everything but `waketime`
(in particular on the accumulator and the stored results) and make the same clock
writes, signals and stop/reschedule decisions. -/
theorem C15_timing_overrun_independence (F : Nat) (w : World) (i1 i2 : Nat → Tick)
    (hpin : ∀ k, (i1 k).pin = (i2 k).pin) :
    (∀ (v : World) (pin t1 t2 : Nat),
      (hx711_event F v pin t1).world =
        setWaketime (hx711_event F v pin t2).world
          (hx711_event F v pin t1).world.hx711_1.waketime ∧
      (hx711_event F v pin t1).world.hx711_1.sample_idx
        = (hx711_event F v pin t2).world.hx711_1.sample_idx ∧
      (hx711_event F v pin t1).world.hx711_1.sample
        = (hx711_event F v pin t2).world.hx711_1.sample ∧
      (hx711_event F v pin t1).world.hx711_1.result
        = (hx711_event F v pin t2).world.hx711_1.result ∧
      clockWrites (hx711_event F v pin t1).effects
        = clockWrites (hx711_event F v pin t2).effects ∧
      wakeCount (hx711_event F v pin t1).effects
        = wakeCount (hx711_event F v pin t2).effects ∧
      (hx711_event F v pin t1).ret = (hx711_event F v pin t2).ret) ∧
    (∀ n,
      runEvents F w i1 n =
        setWaketime (runEvents F w i2 n) (runEvents F w i1 n).hx711_1.waketime ∧
      (runEvents F w i1 n).hx711_1.sample_idx = (runEvents F w i2 n).hx711_1.sample_idx ∧
      (runEvents F w i1 n).hx711_1.sample = (runEvents F w i2 n).hx711_1.sample ∧
      (runEvents F w i1 n).hx711_1.result = (runEvents F w i2 n).hx711_1.result ∧
      clockWrites (nthCall F w i1 n).effects = clockWrites (nthCall F w i2 n).effects ∧
      wakeCount (nthCall F w i1 n).effects = wakeCount (nthCall F w i2 n).effects ∧
      (nthCall F w i1 n).ret = (nthCall F w i2 n).ret) := by
  have hstep : ∀ (v : World) (pin t1 t2 : Nat),
      (hx711_event F v pin t1).world =
        setWaketime (hx711_event F v pin t2).world
          (hx711_event F v pin t1).world.hx711_1.waketime ∧
      (hx711_event F v pin t1).ret = (hx711_event F v pin t2).ret ∧
      clockWrites (hx711_event F v pin t1).effects
        = clockWrites (hx711_event F v pin t2).effects ∧
      wakeCount (hx711_event F v pin t1).effects
        = wakeCount (hx711_event F v pin t2).effects := by
    intro v pin t1 t2
    have h := event_time_indep F v v.hx711_1.waketime pin t1 t2
    rw [setWaketime_self] at h
    exact h
  constructor
  · intro v pin t1 t2
    obtain ⟨h1, h2, h3, h4⟩ := hstep v pin t1 t2
    refine ⟨h1, ?_, ?_, ?_, h3, h4, h2⟩
    · rw [h1]; rfl
    · rw [h1]; rfl
    · rw [h1]; rfl
  · intro n
    have hrun := run_time_indep F w i1 i2 hpin n
    have hcall := event_time_indep F (runEvents F w i2 n) (runEvents F w i1 n).hx711_1.waketime
      (i1 n).pin (i1 n).now (i2 n).now
    rw [← hrun, hpin n] at hcall
    refine ⟨hrun, ?_, ?_, ?_, ?_, ?_, ?_⟩
    · rw [hrun]; rfl
    · rw [hrun]; rfl
    · rw [hrun]; rfl
    · unfold nthCall; rw [hpin n]; exact hcall.2.2.1
    · unfold nthCall; rw [hpin n]; exact hcall.2.2.2
    · unfold nthCall; rw [hpin n]; exact hcall.2.1

/-- C15 at a concrete input: the frame of `exInput` run on time and run late. -/
theorem C15_timing_overrun_independence_witness :
    (runEvents 72000000 exWorld exInput 50).hx711_1.result
      = (runEvents 72000000 exWorld exInputLate 50).hx711_1.result :=
  ((C15_timing_overrun_independence 72000000 exWorld exInput exInputLate
    (fun _ => rfl)).2 50).2.2.2.1

/-- C16. Configure postcondition: for every argument vector (and whatever storage
`oid_alloc` hands out), `command_config_hx711` yields a device with `oid =
args[0]`, `gain = args[3]`, `invert = args[4]` (converted to `int32_t`, same 32-bit
pattern), `sample_idx = 0`, `sample = 0` and `active = 0`; its only collaborator
calls are `gpio_in_setup(args[1], -1)` (input with pull-down) and
`gpio_out_setup(args[2], 1)` (clock initialised high).  It does not schedule the
timer: a timer dispatch after it does nothing, a later query with `enable == 0`
leaves the timer unscheduled, and a later query with `enable != 0` schedules
it. -/
theorem C16_configure_postcondition (args : Nat → Nat) (fresh : hx711) (boot : World) :
    (command_config_hx711 args fresh boot).1.hx711_1.oid = args 0 ∧
    (command_config_hx711 args fresh boot).1.hx711_1.gain = args 3 ∧
    (command_config_hx711 args fresh boot).1.hx711_1.invert = toI32 (args 4) ∧
    (args 4 < 2 ^ 32 →
      toU32 (command_config_hx711 args fresh boot).1.hx711_1.invert = args 4) ∧
    (command_config_hx711 args fresh boot).1.hx711_1.sample_idx = 0 ∧
    (command_config_hx711 args fresh boot).1.hx711_1.sample = 0 ∧
    (command_config_hx711 args fresh boot).1.hx711_1.active = 0 ∧
    (command_config_hx711 args fresh boot).2 =
      [Effect.gpio_in_setup (args 1) (-1), Effect.gpio_out_setup (args 2) 1] ∧
    (command_config_hx711 args fresh boot).1.timer_scheduled = false ∧
    (∀ (F : Nat) (t : Tick),
      timer_dispatch F (command_config_hx711 args fresh boot).1 t
        = ((command_config_hx711 args fresh boot).1, [])) ∧
    (∀ (F : Nat) (qargs : Nat → Nat) (tq : Nat), qargs 1 = 0 →
      (command_query_hx711 F qargs tq
        (command_config_hx711 args fresh boot).1).1.timer_scheduled = false) ∧
    (∀ (F : Nat) (qargs : Nat → Nat) (tq : Nat), qargs 1 ≠ 0 →
      (command_query_hx711 F qargs tq
        (command_config_hx711 args fresh boot).1).1.timer_scheduled = true ∧
      Effect.sched_add_timer ∈ (command_query_hx711 F qargs tq
        (command_config_hx711 args fresh boot).1).2) := by
  refine ⟨rfl, rfl, rfl, fun h => toU32_toI32 _ h, rfl, rfl, rfl, rfl, rfl, ?_, ?_, ?_⟩
  · intro F t
    unfold timer_dispatch
    rw [if_neg (by simp [command_config_hx711])]
  · intro F qargs tq hq
    unfold command_query_hx711
    simp only [hq]
    rw [if_neg (by simp)]
    rfl
  · intro F qargs tq hq
    unfold command_query_hx711
    simp only
    rw [if_pos hq]
    exact ⟨rfl, by simp⟩

/-- C16 at the concrete arguments `oid=3 dout_pin=10 sck_pin=11 gain=1 invert=1`. -/
theorem C16_configure_postcondition_witness :
    toU32 (command_config_hx711 exConfigArgs exFresh exBoot).1.hx711_1.invert
      = exConfigArgs 4 :=
  (C16_configure_postcondition exConfigArgs exFresh exBoot).2.2.2.1 (by decide)

/-- C17. Read, then toggle.  In every state `v`, the GPIO accesses of one
`hx711_event` call are the read of the data line and then at most one write of
the clock line, and the read is the first statement of the call.  On a capture
call (`sample_idx` odd and below 48 on entry) with the read bit `pin`, bit `31 -
sample_idx/2` of the accumulator becomes its old value ORed with that bit and
every other bit is kept; this accumulator is what the call stores in `sample` (or,
on a completing call, what `result` is computed from).  On a call with
`sample_idx` even or at least 48 the capture step ignores the read value, and
`sample` is left as it was or reset to 0 by a completion.  In every state `w`
reached after configuration, `sample` after such a call is the same whatever was
read. -/
theorem C17_read_then_toggle (F : Nat) (args : Nat → Nat) (fresh : hx711) (boot : World)
    (acts : List Action) (w : World)
    (hw : w = runActions F (command_config_hx711 args fresh boot).1 acts) :
    (∀ (v : World) (pin now : Nat),
      (gpioOps (hx711_event F v pin now).effects = [Effect.gpio_in_read pin] ∨
        ∃ x, gpioOps (hx711_event F v pin now).effects
          = [Effect.gpio_in_read pin, Effect.gpio_out_write x]) ∧
      (hx711_event_stmts F v pin now).head? = some (Stmt.call (Effect.gpio_in_read pin)) ∧
      ((v.hx711_1.sample_idx % 2 ≠ 0 ∧ v.hx711_1.sample_idx < 48) → pin ≤ 1 →
        (∀ i, (toU32 (capture v.hx711_1 pin)).testBit i =
          ((toU32 v.hx711_1.sample).testBit i ||
            (decide (i = 31 - v.hx711_1.sample_idx / 2) && decide (pin = 1)))) ∧
        (¬ completesFrame v pin →
          (hx711_event F v pin now).world.hx711_1.sample = capture v.hx711_1 pin) ∧
        (completesFrame v pin →
          (hx711_event F v pin now).world.hx711_1.result
            = wrapI32 ((capture v.hx711_1 pin >>> (8 : Nat)) * v.hx711_1.invert))) ∧
      ((v.hx711_1.sample_idx % 2 = 0 ∨ 48 ≤ v.hx711_1.sample_idx) →
        capture v.hx711_1 pin = v.hx711_1.sample ∧
        (hx711_event F v pin now).world.hx711_1.sample
          = if completesFrame v pin then 0 else v.hx711_1.sample)) ∧
    (∀ (pin pin2 now now2 : Nat),
      (w.hx711_1.sample_idx % 2 = 0 ∨ 48 ≤ w.hx711_1.sample_idx) →
      (hx711_event F w pin now).world.hx711_1.sample
        = (hx711_event F w pin2 now2).world.hx711_1.sample) := by
  have hnon : ∀ (v : World) (pin now : Nat),
      (v.hx711_1.sample_idx % 2 = 0 ∨ 48 ≤ v.hx711_1.sample_idx) →
      (hx711_event F v pin now).world.hx711_1.sample
        = if completesFrame v pin then 0 else v.hx711_1.sample := by
    intro v pin now hc
    rw [event_sample_eq, capture_skip _ _ hc]
    by_cases h1 : completesFrame v pin
    · rw [if_pos h1, if_pos h1]
    · rw [if_neg h1, if_neg h1]
      by_cases h2 : isRetry v pin
      · rw [if_pos h2]
      · rw [if_neg h2]
  constructor
  · intro v pin now
    refine ⟨event_gpioOps F v pin now, rfl, ?_, fun hc => ⟨capture_skip _ _ hc, hnon v pin now hc⟩⟩
    intro hc hp
    have hnr : ¬ isRetry v pin := fun h => by
      have := h.1
      omega
    refine ⟨fun i => capture_bits _ _ hc hp i, ?_, ?_⟩
    · intro hnc
      rw [event_sample_eq, if_neg hnc, if_neg hnr]
    · intro hcf
      by_cases ha : v.hx711_1.active = 0
      · rw [event_complete_stop F v pin now hcf.1 hcf.2 ha]
      · rw [event_complete_go F v pin now hcf.1 hcf.2 ha]
  · intro pin pin2 now now2 hc
    have hinv : ReachInv w := by rw [hw]; exact reach_ReachInv F args fresh boot acts
    rw [hnon w pin now hc, hnon w pin2 now2 hc]
    by_cases h0 : w.hx711_1.sample_idx = 0
    · rw [hinv.2 h0]
      simp
    · have hiff : completesFrame w pin ↔ completesFrame w pin2 := by
        unfold completesFrame isRetry
        constructor
        · rintro ⟨_, h⟩; exact ⟨fun h' => h0 h'.1, h⟩
        · rintro ⟨_, h⟩; exact ⟨fun h' => h0 h'.1, h⟩
      by_cases h1 : completesFrame w pin
      · rw [if_pos h1, if_pos (hiff.mp h1)]
      · rw [if_neg h1, if_neg (fun h => h1 (hiff.mpr h))]

/-- C17 at a concrete input: on the capture call of `exCapture` (`sample_idx =
5`) a read of 1 sets bit 29 of the accumulator. -/
theorem C17_read_then_toggle_witness :
    (toU32 (capture exCapture.hx711_1 1)).testBit 29 =
      ((toU32 exCapture.hx711_1.sample).testBit 29 ||
        (decide (29 = 31 - exCapture.hx711_1.sample_idx / 2) && decide (1 = 1))) :=
  (((C17_read_then_toggle 72000000 exConfigArgs exFresh exBoot exActions _ rfl).1
    exCapture 1 5).2.2.1 (by decide) (by decide)).1 29

/-- C18. Out-of-range gain gives a malformed frame length.  `command_config_hx711`
stores `args[3]` as the gain whatever its value.  For every gain, from a frame
start (`sample_idx = 0`, data line low on the first call) the frame completes on
invocation number `max(1, (48 + 2*gain) mod 2^32)` and on none before.  For gain 0
that is 48 invocations, writing 24 clock pulses and no extra one.  For gain
`2^31 - 24` the threshold is 0: from any state with `sample_idx = 0` and `sample =
0`, a call that reads the data line low completes a frame at once; it captures no
bit, writes the clock low (and never high), signals the notifier, stores result 0
and leaves `sample_idx = 0`, `sample = 0`, so the same holds for the next ready
call. -/
theorem C18_out_of_range_gain (F : Nat) (w : World) (inp : Nat → Tick)
    (h0 : w.hx711_1.sample_idx = 0) (hp : (inp 0).pin = 0) :
    (∀ (args : Nat → Nat) (fresh : hx711) (boot : World),
      (command_config_hx711 args fresh boot).1.hx711_1.gain = args 3) ∧
    (∀ k, k + 1 < max 1 ((48 + 2 * w.hx711_1.gain) % 2 ^ 32) →
      ¬ completesFrame (runEvents F w inp k) (inp k).pin ∧
      wakeCount (nthCall F w inp k).effects = 0) ∧
    (completesFrame
        (runEvents F w inp (max 1 ((48 + 2 * w.hx711_1.gain) % 2 ^ 32) - 1))
        (inp (max 1 ((48 + 2 * w.hx711_1.gain) % 2 ^ 32) - 1)).pin ∧
      wakeCount
        (nthCall F w inp (max 1 ((48 + 2 * w.hx711_1.gain) % 2 ^ 32) - 1)).effects = 1) ∧
    (w.hx711_1.gain = 0 →
      max 1 ((48 + 2 * w.hx711_1.gain) % 2 ^ 32) = 48 ∧
      clockWrites (runEffects F w inp 48) = (List.replicate 24 [1, 0]).flatten) ∧
    (w.hx711_1.gain = 2 ^ 31 - 24 →
      max 1 ((48 + 2 * w.hx711_1.gain) % 2 ^ 32) = 1 ∧
      ∀ (v : World) (now : Nat), v.hx711_1.gain = 2 ^ 31 - 24 →
        v.hx711_1.sample_idx = 0 → v.hx711_1.sample = 0 →
        completesFrame v 0 ∧
        capture v.hx711_1 0 = v.hx711_1.sample ∧
        clockWrites (hx711_event F v 0 now).effects = [0] ∧
        wakeCount (hx711_event F v 0 now).effects = 1 ∧
        (hx711_event F v 0 now).world.hx711_1.result = 0 ∧
        (hx711_event F v 0 now).world.hx711_1.sample_idx = 0 ∧
        (hx711_event F v 0 now).world.hx711_1.sample = 0 ∧
        (hx711_event F v 0 now).world.hx711_1.gain = 2 ^ 31 - 24) := by
  have hT : (48 + (2 * w.hx711_1.gain) % 2 ^ 32) % 2 ^ 32
      = (48 + 2 * w.hx711_1.gain) % 2 ^ 32 := by omega
  have hcomp := thr_completion F w inp h0 hp
  rw [hT] at hcomp
  refine ⟨fun _ _ _ => rfl, ?_, ?_, ?_, ?_⟩
  · intro k hk
    have hnc := hcomp.1 k (by omega)
    exact ⟨hnc, (completes_iff_wake F _ _ _).2.mp hnc⟩
  · exact ⟨hcomp.2, (completes_iff_wake F _ _ _).1.mp hcomp.2⟩
  · intro hg
    refine ⟨by rw [hg]; decide, ?_⟩
    rw [frame_clock_writes F w inp (by rw [hg]; norm_num) h0 hp 48 (by rw [hg])]
    decide
  · intro hg
    refine ⟨by rw [hg]; decide, ?_⟩
    intro v now hvg hv0 hvs
    have hnr : ¬ (v.hx711_1.sample_idx = 0 ∧ (0 : Nat) ≠ 0) := fun h => h.2 rfl
    have hge : (48 + (2 * v.hx711_1.gain) % 2 ^ 32) % 2 ^ 32
        ≤ (v.hx711_1.sample_idx + 1) % 2 ^ 32 := by rw [hvg, hv0]; decide
    have hcap : capture v.hx711_1 0 = v.hx711_1.sample :=
      capture_skip _ _ (Or.inl (by rw [hv0]))
    have hres : wrapI32 ((capture v.hx711_1 0 >>> (8 : Nat)) * v.hx711_1.invert) = 0 := by
      rw [hcap, hvs, shr8]
      simp
      decide
    by_cases ha : v.hx711_1.active = 0
    · rw [event_complete_stop F v 0 now hnr hge ha]
      exact ⟨⟨hnr, hge⟩, hcap, rfl, by simp [wakeCount], hres, rfl, rfl, hvg⟩
    · rw [event_complete_go F v 0 now hnr hge ha]
      exact ⟨⟨hnr, hge⟩, hcap, rfl, by simp [wakeCount], hres, rfl, rfl, hvg⟩

/-- C18 at concrete inputs: with gain 0 the frame started at `exGain0` completes
on invocation 48; with gain `2^31 - 24` a ready call from `exGainWrap` stores
result 0. -/
theorem C18_out_of_range_gain_witness :
    completesFrame
      (runEvents 72000000 exGain0 exInput
        (max 1 ((48 + 2 * exGain0.hx711_1.gain) % 2 ^ 32) - 1))
      (exInput (max 1 ((48 + 2 * exGain0.hx711_1.gain) % 2 ^ 32) - 1)).pin ∧
    (hx711_event 72000000 exGainWrap 0 5).world.hx711_1.result = 0 :=
  ⟨(C18_out_of_range_gain 72000000 exGain0 exInput rfl rfl).2.2.1.1,
   (((C18_out_of_range_gain 72000000 exGainWrap exLow rfl rfl).2.2.2.2 rfl).2
      exGainWrap 5 rfl rfl rfl).2.2.2.2.1⟩

/-- C19. Accumulator invariant and result range: for gain 1, 2 or 3, in every
state `w` reached from `command_config_hx711` by `command_query_hx711` and
`hx711_event` calls whose data-line reads are 0 or 1, the low 8 bits of `sample`
are zero, every bit of `sample` at a position below `32 - ceil(sample_idx/2)` is
zero, and `sample == 0` whenever `sample_idx == 0`.  Consequently a completing
call from such a state stores a result in `[-2^23, 2^23 - 1]` when `invert = 1`
and in `[-(2^23 - 1), 2^23]` when `invert = -1`, and in both cases the stored
value is the exact product `(sample >> 8) * invert`: the multiplication does not
overflow 32 bits. -/
theorem C19_accumulator_invariant (F : Nat) (args : Nat → Nat) (fresh : hx711)
    (boot : World) (acts : List Action) (w : World)
    (hg : args 3 = 1 ∨ args 3 = 2 ∨ args 3 = 3)
    (hb : bitReads acts)
    (hw : w = runActions F (command_config_hx711 args fresh boot).1 acts) :
    toU32 w.hx711_1.sample % 2 ^ 8 = 0 ∧
    (∀ i, i < 8 → (toU32 w.hx711_1.sample).testBit i = false) ∧
    (∀ i, i < 32 - (w.hx711_1.sample_idx + 1) / 2 →
      (toU32 w.hx711_1.sample).testBit i = false) ∧
    (w.hx711_1.sample_idx = 0 → w.hx711_1.sample = 0) ∧
    (∀ pin now, pin ≤ 1 → completesFrame w pin →
      (w.hx711_1.invert = 1 →
        -2 ^ 23 ≤ (hx711_event F w pin now).world.hx711_1.result ∧
        (hx711_event F w pin now).world.hx711_1.result ≤ 2 ^ 23 - 1) ∧
      (w.hx711_1.invert = -1 →
        -(2 ^ 23 - 1) ≤ (hx711_event F w pin now).world.hx711_1.result ∧
        (hx711_event F w pin now).world.hx711_1.result ≤ 2 ^ 23) ∧
      ((w.hx711_1.invert = 1 ∨ w.hx711_1.invert = -1) →
        (hx711_event F w pin now).world.hx711_1.result
          = (capture w.hx711_1 pin >>> (8 : Nat)) * w.hx711_1.invert)) := by
  have hgain : w.hx711_1.gain = args 3 := by
    rw [hw, (runActions_config F acts _).1]; rfl
  have hreach : ReachInv w := by rw [hw]; exact reach_ReachInv F args fresh boot acts
  have hbit : BitInv w := by rw [hw]; exact reach_BitInv F args fresh boot acts hb
  have hthr : (48 + (2 * w.hx711_1.gain) % 2 ^ 32) % 2 ^ 32 = 48 + 2 * w.hx711_1.gain := by
    rw [hgain]; omega
  have hidx : w.hx711_1.sample_idx < 54 := by
    rcases hreach.1 with h | h
    · omega
    · rw [hthr, hgain] at h; omega
  have h8 : toU32 w.hx711_1.sample % 2 ^ 8 = 0 :=
    mod_zero_of_le _ _ _ hbit.2 (by omega)
  have hceil : toU32 w.hx711_1.sample % 2 ^ (32 - (w.hx711_1.sample_idx + 1) / 2) = 0 :=
    mod_zero_of_le _ _ _ hbit.2 (by omega)
  refine ⟨h8, fun i hi => testBit_of_mod_zero _ _ _ h8 hi,
    fun i hi => testBit_of_mod_zero _ _ _ hceil hi, hreach.2, ?_⟩
  intro pin now _ hc
  have hres : (hx711_event F w pin now).world.hx711_1.result
      = wrapI32 ((capture w.hx711_1 pin >>> (8 : Nat)) * w.hx711_1.invert) := by
    by_cases ha : w.hx711_1.active = 0
    · rw [event_complete_stop F w pin now hc.1 hc.2 ha]
    · rw [event_complete_go F w pin now hc.1 hc.2 ha]
  have hrange := shr8_range _ (capture_range w.hx711_1 pin hbit.1)
  refine ⟨?_, ?_, ?_⟩
  · intro hinv
    rw [hres, hinv, mul_one, wrapI32_of_range _ (by omega) (by omega)]
    omega
  · intro hinv
    rw [hres, hinv, mul_neg, mul_one, wrapI32_of_range _ (by omega) (by omega)]
    omega
  · intro hinv
    rw [hres]
    rcases hinv with hinv | hinv
    · rw [hinv, mul_one, wrapI32_of_range _ (by omega) (by omega)]
    · rw [hinv, mul_neg, mul_one, wrapI32_of_range _ (by omega) (by omega)]

/-- C19 at a concrete input: the state reached by `exActions` (reads 0 or 1)
after the configuration `exConfigArgs`. -/
theorem C19_accumulator_invariant_witness :
    toU32 (runActions 72000000 (command_config_hx711 exConfigArgs exFresh exBoot).1
      exActions).hx711_1.sample % 2 ^ 8 = 0 :=
  (C19_accumulator_invariant 72000000 exConfigArgs exFresh exBoot exActions _
    (Or.inl rfl) (by simp [exActions, bitReads]) rfl).1

end HX711
